import Mathlib

/-!
Verification of the Recipe Extraction & Normalization Engine of the myzest
repository (files app/scrapers.py and app/main.py).

The Python source is shallowly embedded: every function is translated into an
executable Lean definition over lists of characters / explicit value types.
Python exceptions are modelled with Except, Python None with Option, Python
dynamic values with the PyVal inductive, and the concrete regular expressions
of the source are translated into deterministic character-list matchers whose
behaviour coincides with the (backtracking) regex semantics on the shapes of
patterns that occur in the source; where that equivalence needs an argument it
is given in a comment next to the definition.

Python floats are modelled as rationals: every float literal and every float
value reached by the theorems below is exactly representable, so no rounding
behaviour is lost on the inputs the theorems speak about.
-/

namespace Myzest

/-! ## Basic character helpers (ASCII semantics of the Python source) -/

/-- ASCII lowercase conversion, plus the one non-ASCII letter appearing in the
unit table (Ñ/ñ, from "puñado").  Models the case folding used by
re.IGNORECASE on the alphabets that occur in the source patterns. -/
def lowerC (c : Char) : Char :=
  if 65 ≤ c.toNat ∧ c.toNat ≤ 90 then Char.ofNat (c.toNat + 32)
  else if c = 'Ñ' then 'ñ' else c

/-- The character class \d restricted to ASCII digits (the only digits the
claims quantify over). -/
def isDig (c : Char) : Bool := 48 ≤ c.toNat ∧ c.toNat ≤ 57

/-- Python str.strip() whitespace (ASCII part: space, tab, LF, CR, VT, FF). -/
def isPySpace (c : Char) : Bool :=
  c = ' ' ∨ c = '\t' ∨ c = '\n' ∨ c = '\r' ∨ c = Char.ofNat 11 ∨ c = Char.ofNat 12

/-- Numeric value of an ASCII digit. -/
def digVal (c : Char) : Nat := c.toNat - 48

/-- Value of a digit string (most significant first), as produced by int(). -/
def digitsVal (ds : List Char) : Nat := ds.foldl (fun a c => a * 10 + digVal c) 0

/-- Split off the maximal leading digit run (the greedy match of \d+ or \d*). -/
def digitsSplit (cs : List Char) : List Char × List Char :=
  (cs.takeWhile isDig, cs.dropWhile isDig)

/-- Split off the maximal leading whitespace run (the greedy match of \s+ / \s*). -/
def wsSplit (cs : List Char) : List Char × List Char :=
  (cs.takeWhile isPySpace, cs.dropWhile isPySpace)

/-- str.strip() on a character list. -/
def pyStripL (cs : List Char) : List Char :=
  ((cs.dropWhile isPySpace).reverse.dropWhile isPySpace).reverse

/-- str.strip() on a string. -/
def pyStrip (s : String) : String := String.mk (pyStripL s.data)

/-- Case-insensitive literal match: if pat (already lowercase) is a prefix of
cs up to lowerC, return the remainder. -/
def ciStarts : List Char → List Char → Option (List Char)
  | [], cs => some cs
  | _ :: _, [] => none
  | p :: ps, c :: cs => if lowerC c = p then ciStarts ps cs else none

/-- Case-sensitive literal match returning the remainder. -/
def litStarts : List Char → List Char → Option (List Char)
  | [], cs => some cs
  | _ :: _, [] => none
  | p :: ps, c :: cs => if c = p then litStarts ps cs else none

/-- Strip characters of a set from the right (str.rstrip(set)). -/
def rstripSet (set : List Char) (cs : List Char) : List Char :=
  (cs.reverse.dropWhile (fun c => set.contains c)).reverse

/-- Strip characters of a set from both ends (str.strip(set)). -/
def stripSet (set : List Char) (cs : List Char) : List Char :=
  ((cs.dropWhile (fun c => set.contains c)).reverse.dropWhile
    (fun c => set.contains c)).reverse

/-- Substring containment, Python's `needle in haystack` (case-sensitive). -/
def containsSub (needle : List Char) : List Char → Bool
  | [] => (litStarts needle []).isSome
  | c :: cs => (litStarts needle (c :: cs)).isSome || containsSub needle cs

/-! ## Duration parser: parse_iso_duration (app/scrapers.py, lines 19-40)

The source applies
  re.match(r'P(?:(\d+)D)?T?(?:(\d+)H)?(?:(\d+)M)?(?:(\d+)S)?', s.strip(), re.I)
re.match anchors at the start and matches a prefix.  Every group after the
literal P is optional, so the regex succeeds exactly when the stripped string
starts with P or p.  Each optional group (?:(\d+)X)? can only match by taking
the maximal digit run followed by the letter X (a shorter digit run is
followed by another digit, never by X), so the groups are matched by the
deterministic scan below; when the digits are not followed by the letter the
group matches empty and consumes nothing. -/

/-- One optional group (?:(\d+)X)? with X a (lowercase) letter: returns the
captured value (0 when absent, like int(m.group(k) or 0)) and the remainder. -/
def groupNum (letter : Char) (cs : List Char) : Nat × List Char :=
  match digitsSplit cs with
  | (ds, rest) =>
    match ds, rest with
    | _ :: _, c :: rest' =>
        if lowerC c = letter then (digitsVal ds, rest') else (0, cs)
    | _, _ => (0, cs)

/-- The optional T separator (T?). -/
def tSkip : List Char → List Char
  | [] => []
  | c :: r => if lowerC c = 't' then r else c :: r

/-- The regex match of the duration pattern: the four captured groups as
numbers, or none when the regex does not match (stripped string does not
start with P/p). -/
def isoMatchL : List Char → Option (Nat × Nat × Nat × Nat)
  | [] => none
  | c :: rest =>
    if lowerC c = 'p' then
      let (d, r1) := groupNum 'd' rest
      let r2 := tSkip r1
      let (h, r3) := groupNum 'h' r2
      let (m, r4) := groupNum 'm' r3
      let (s, _) := groupNum 's' r4
      some (d, h, m, s)
    else none

/-- Digits of an int() literal: digits with optional single underscores
between digits (Python 3 int grammar). -/
def digitsUnd : List Char → Option Nat
  | [] => none
  | c :: rest =>
    if isDig c then
      let rec go (acc : Nat) : List Char → Option Nat
        | [] => some acc
        | '_' :: c' :: r =>
            if isDig c' then go (acc * 10 + digVal c') r else none
        | '_' :: [] => none
        | c' :: r => if isDig c' then go (acc * 10 + digVal c') r else none
      go (digVal c) rest
    else none

/-- Python int(s) for a string: strips whitespace, optional sign, digit body;
none models the ValueError. -/
def pyInt (s : String) : Option Int :=
  match pyStripL s.data with
  | '+' :: cs => (digitsUnd cs).map (fun n => (n : Int))
  | '-' :: cs => (digitsUnd cs).map (fun n => -(n : Int))
  | cs => (digitsUnd cs).map (fun n => (n : Int))

/-- parse_iso_duration (scrapers.py 19-40).  Note that on the regex path a
computed total of zero becomes None, while the plain-number fallback returns
int(s) unchanged (including 0 and negative numbers). -/
def parse_iso_duration (s : String) : Option Int :=
  if s = "" then none
  else
    match isoMatchL (pyStripL s.data) with
    | some (d, h, m, sec) =>
      let total : Int := d * 1440 + h * 60 + m + (if 30 ≤ sec then 1 else 0)
      if 0 < total then some total else none
    | none => pyInt s

/-! ## Python dynamic values

PyVal models the JSON-shaped dynamic values the helpers receive: None,
strings, ints, floats (as exact rationals, see the file comment), bools,
lists and dicts (association lists; json.loads yields unique keys). -/

inductive PyVal where
  | none
  | str (s : String)
  | int (n : Int)
  | float (q : ℚ)
  | bool (b : Bool)
  | list (l : List PyVal)
  | dict (l : List (String × PyVal))
deriving BEq

/-- Python truthiness for the modelled values. -/
def pyFalsy : PyVal → Bool
  | .none => true
  | .str s => s = ""
  | .int n => n = 0
  | .float q => q = 0
  | .bool b => !b
  | .list l => l.isEmpty
  | .dict l => l.isEmpty

/-- dict.get(k) — None when the key is absent. -/
def dictGet (kvs : List (String × PyVal)) (k : String) : Option PyVal :=
  (kvs.find? (fun kv => kv.1 = k)).map (·.2)

/-- dict.get(k, default). -/
def dictGetD (kvs : List (String × PyVal)) (k : String) (d : PyVal) : PyVal :=
  (dictGet kvs k).getD d

/-- x or y (Python): y when x is falsy. -/
def pyOr (a b : PyVal) : PyVal := if pyFalsy a then b else a

/-- Decimal rendering of a Python float whose exact value has a finite decimal
expansion (all float values reached by the theorems below do); the fuel bounds
the fractional digits. -/
def floatFracDigits : Nat → Nat → Nat → List Char
  | 0, _, _ => []
  | _ + 1, _, 0 => []
  | fuel + 1, den, num =>
    let d := num * 10 / den
    Char.ofNat (48 + d) :: floatFracDigits fuel den (num * 10 % den)

/-- str() of a float: sign, integer part, '.', fractional digits ("4.0" for
integral values, "2.5" for 5/2, matching Python's shortest-exact rendering on
finite-decimal values). -/
def pyFloatStr (q : ℚ) : String :=
  let sign := if q < 0 then "-" else ""
  let n := q.num.natAbs
  let den := q.den
  let intPart := toString (n / den)
  let frac := if n % den = 0 then "0" else String.mk (floatFracDigits 40 den (n % den))
  sign ++ intPart ++ "." ++ frac

/-- repr() of a string: single quotes with minimal escaping (strings
containing quote characters do not occur in any theorem below). -/
def strRepr (s : String) : String :=
  "'" ++ String.mk (s.data.flatMap
    (fun c => if c = '\\' ∨ c = '\'' then ['\\', c] else [c])) ++ "'"

mutual

/-- repr() of a PyVal; container elements are shown with repr. -/
def pyRepr : PyVal → String
  | .none => "None"
  | .str s => strRepr s
  | .int n => toString n
  | .float q => pyFloatStr q
  | .bool b => if b then "True" else "False"
  | .list l => "[" ++ pyReprList l ++ "]"
  | .dict kvs => "\x7b" ++ pyReprKVs kvs ++ "\x7d"

/-- Comma-joined reprs of list elements. -/
def pyReprList : List PyVal → String
  | [] => ""
  | [v] => pyRepr v
  | v :: vs => pyRepr v ++ ", " ++ pyReprList vs

/-- Comma-joined reprs of dict entries. -/
def pyReprKVs : List (String × PyVal) → String
  | [] => ""
  | [(k, v)] => strRepr k ++ ": " ++ pyRepr v
  | (k, v) :: kvs => strRepr k ++ ": " ++ pyRepr v ++ ", " ++ pyReprKVs kvs

end

/-- str() of a PyVal: identical to repr() except on top-level strings. -/
def pyStr (v : PyVal) : String :=
  match v with
  | .str s => s
  | v' => pyRepr v'

/-! ## _clean_text (scrapers.py 43-49)

re.sub(r'<[^>]+>', '', s): at each position the regex engine tries to match
'<' [^>]+ '>'; [^>]+ is greedy and its only viable extent is the maximal run
of non-'>' characters (any shorter run is followed by another non-'>'
character), so a match at '<' exists iff that run is non-empty and followed by
'>'; on failure the engine emits the character and advances one position. -/

def stripTagsGo : Nat → List Char → List Char
  | 0, cs => cs
  | _ + 1, [] => []
  | fuel + 1, c :: cs =>
    if c = '<' then
      let body := cs.takeWhile (fun c' => c' ≠ '>')
      let rest := cs.dropWhile (fun c' => c' ≠ '>')
      match body, rest with
      | _ :: _, '>' :: rest' => stripTagsGo fuel rest'
      | _, _ => c :: stripTagsGo fuel cs
    else c :: stripTagsGo fuel cs

/-- re.sub(r'<[^>]+>', '', s). -/
def stripTags (cs : List Char) : List Char := stripTagsGo (cs.length + 1) cs

/-- re.sub(r'\s+', ' ', s): each maximal whitespace run becomes one space.
The flag records whether the scan is inside a whitespace run. -/
def collapseWSGo : Bool → List Char → List Char
  | _, [] => []
  | inWs, c :: cs =>
    if isPySpace c then
      if inWs then collapseWSGo true cs else ' ' :: collapseWSGo true cs
    else c :: collapseWSGo false cs

/-- re.sub(r'\s+', ' ', s). -/
def collapseWS (cs : List Char) : List Char := collapseWSGo false cs

/-- The string-cleaning core of _clean_text (tag removal, whitespace
collapsing, strip). -/
def cleanStr (s : String) : String :=
  String.mk (pyStripL (collapseWS (stripTags s.data)))

/-- _clean_text (scrapers.py 43-49).  Falsy input returns "" at once; any
truthy input — string or not — is passed through str() and cleaned. -/
def clean_text (v : PyVal) : String :=
  if pyFalsy v then "" else cleanStr (pyStr v)

/-! ## _extract_servings (scrapers.py 119-129) -/

/-- re.search(r'(\d+)', s): the first maximal digit run, as a number. -/
def firstDigitRun : List Char → Option Nat
  | [] => Option.none
  | c :: cs =>
    if isDig c then some (digitsVal ((c :: cs).takeWhile isDig))
    else firstDigitRun cs

/-- _extract_servings.  The isinstance(value, int) test happens before the
list unwrapping, so the first element of a list always goes through the
str()-and-scan path; Python bools pass isinstance(int) and are returned as
their numeric value. -/
def extract_servings (v : PyVal) : Option Int :=
  match v with
  | .none => Option.none
  | .int n => some n
  | .bool b => some (if b then 1 else 0)
  | .list l =>
    let v' := match l with
      | [] => PyVal.none
      | x :: _ => x
    (firstDigitRun (pyStrip (pyStr v')).data).map (fun n => (n : Int))
  | v' => (firstDigitRun (pyStrip (pyStr v')).data).map (fun n => (n : Int))

/-! ## _resolve_url (scrapers.py 52-58)

urllib.parse.urljoin is an external stdlib collaborator with no claim about
it; it is threaded through as an uninterpreted function argument uj. -/

def resolve_url (uj : String → String → String) (url base_url : String) : String :=
  if url = "" then ""
  else if url.startsWith "http://" || url.startsWith "https://" || url.startsWith "//"
  then url
  else uj base_url url

/-! ## _normalize_ingredients (scrapers.py 61-90) -/

/-- The body of the ingredient loop for one element: the string the element
contributes, or none when it is skipped (empty text, or a type with no
matching isinstance branch). -/
def normIngItem (item : PyVal) : Option String :=
  match item with
  | .str s =>
    let cleaned := cleanStr s
    if cleaned = "" then Option.none else some cleaned
  | .dict kvs =>
    let text := pyOr ((dictGet kvs "text").getD .none) (dictGetD kvs "@value" (.str ""))
    let text :=
      if pyFalsy text then
        let qty := pyOr (pyOr ((dictGet kvs "quantity").getD .none)
          ((dictGet kvs "amount").getD .none)) (.str "")
        let unit := pyOr (pyOr ((dictGet kvs "unitText").getD .none)
          ((dictGet kvs "unit").getD .none)) (.str "")
        let nm := pyOr (pyOr ((dictGet kvs "name").getD .none)
          ((dictGet kvs "ingredient").getD .none)) (.str "")
        let parts := (if pyFalsy qty then [] else [pyStr qty]) ++
          (if pyFalsy unit then [] else [pyStr unit]) ++
          (if pyFalsy nm then [] else [pyStr nm])
        PyVal.str (String.intercalate " " parts)
      else text
    let text := if pyFalsy text then pyOr ((dictGet kvs "name").getD .none) (.str "") else text
    let cleaned := cleanStr (pyStr text)
    if cleaned = "" then Option.none else some cleaned
  | _ => Option.none

/-- The ingredient loop over a list. -/
def normIngList (l : List PyVal) : List String := l.filterMap normIngItem

/-- _normalize_ingredients on an arbitrary value.  A falsy value yields [];
iterating a string yields its characters, iterating a dict yields its keys;
a truthy number is not iterable (TypeError, modelled as error). -/
def normalize_ingredients (v : PyVal) : Except Unit (List String) :=
  if pyFalsy v then .ok []
  else
    match v with
    | .list l => .ok (normIngList l)
    | .str s => .ok (normIngList (s.data.map (fun c => .str (String.mk [c]))))
    | .dict kvs => .ok (normIngList (kvs.map (fun kv => .str kv.1)))
    | _ => .error ()

/-! ## _normalize_steps (scrapers.py 93-116)

The recursion (HowToSection item lists, nested lists) goes through dict
lookups, so it is written with an explicit fuel that decreases once per
nesting level; pySize below dominates the nesting depth, so the wrapper
never exhausts the fuel. -/

mutual

/-- Syntactic size of a value; strictly larger than the size of any nested
value, hence an upper bound for the nesting depth. -/
def pySize : PyVal → Nat
  | .list l => 1 + pySizeList l
  | .dict kvs => 1 + pySizeKVs kvs
  | _ => 1

/-- Sum of sizes of list elements. -/
def pySizeList : List PyVal → Nat
  | [] => 1
  | v :: vs => pySize v + pySizeList vs

/-- Sum of sizes of dict values. -/
def pySizeKVs : List (String × PyVal) → Nat
  | [] => 1
  | (_, v) :: kvs => pySize v + pySizeKVs kvs

end

/-- One element of the steps loop; recur is the recursive call for
HowToSection item lists and nested lists. -/
def stepItem (recur : PyVal → Except Unit (List String)) (item : PyVal) :
    Except Unit (List String) :=
  match item with
  | .str s =>
    let cleaned := cleanStr s
    .ok (if cleaned = "" then [] else [cleaned])
  | .dict kvs =>
    let isSection : Bool := match dictGetD kvs "@type" (.str "") with
      | .str t => t == "HowToSection"
      | _ => false
    if isSection then recur (dictGetD kvs "itemListElement" (.list []))
    else
      let text := pyOr (pyOr ((dictGet kvs "text").getD .none)
        ((dictGet kvs "description").getD .none)) (dictGetD kvs "name" (.str ""))
      let cleaned := cleanStr (pyStr text)
      .ok (if cleaned = "" then [] else [cleaned])
  | .list l => recur (.list l)
  | _ => .ok []

/-- _normalize_steps with explicit fuel. -/
def normStepsF : Nat → PyVal → Except Unit (List String)
  | 0, _ => .ok []
  | fuel + 1, v =>
    if pyFalsy v then .ok []
    else
      match v with
      | .list l =>
        l.foldlM (fun acc item => do
          let r ← stepItem (normStepsF fuel) item
          pure (acc ++ r)) []
      | .str s =>
        .ok ((s.data.map (fun c => cleanStr (String.mk [c]))).filter (· ≠ ""))
      | .dict kvs =>
        .ok ((kvs.map (fun kv => cleanStr kv.1)).filter (· ≠ ""))
      | _ => .error ()

/-- _normalize_steps. -/
def normalize_steps (v : PyVal) : Except Unit (List String) :=
  normStepsF (pySize v) v

/-! ## Ingredient text parser (app/main.py, lines 237-325)

The regexes of parse_ingredient / _parse_qty / _parse_unit are translated
into deterministic matchers.  Determinism is exact for these patterns:

* every \s+ / \s* / \d+ / \d* / [^:]+ / [^)]+ occurrence is followed either
  by a literal whose first character cannot belong to the repeated class, or
  only by constructs that always succeed (optional groups and (.*) at the
  end) — so the greedy maximal run is the only viable extent;
* each optional token (s?, \.?, [ao]?, (?:de\s+)?, (?:su )?, l?, ,?) is
  matched take-first with an explicit retry of the continuation without it,
  which is precisely the regex backtracking order;
* the pinch-noun alternation is tried in source order and the alternatives
  are pairwise non-prefix, so first-match is exact.
-/

/-- The Unicode vulgar-fraction table of _parse_qty with its float literals
(0.333 and 0.667 written as the decimal rationals of the source text). -/
def fracVal (c : Char) : Option ℚ :=
  if c = '½' then some (1/2)
  else if c = '¼' then some (1/4)
  else if c = '¾' then some (3/4)
  else if c = '⅓' then some (333/1000)
  else if c = '⅔' then some (667/1000)
  else Option.none

/-- Rule (b) of the quantity grammar: r'^(\d+)\s+(\d+)/(\d+)\s+(.*)', a mixed
number.  Division is exact in ℚ; a zero denominator would raise in Python and
is reached by no theorem below. -/
def qtyMixed (cs : List Char) : Option (ℚ × List Char) :=
  let (d1, r1) := digitsSplit cs
  if d1.isEmpty then Option.none
  else
    let (w1, r2) := wsSplit r1
    if w1.isEmpty then Option.none
    else
      let (d2, r3) := digitsSplit r2
      if d2.isEmpty then Option.none
      else
        match r3 with
        | c :: r4 =>
          if c = '/' then
            let (d3, r5) := digitsSplit r4
            if d3.isEmpty then Option.none
            else
              let (w2, r6) := wsSplit r5
              if w2.isEmpty then Option.none
              else some ((digitsVal d1 : ℚ) + (digitsVal d2 : ℚ) / (digitsVal d3 : ℚ),
                pyStripL r6)
          else Option.none
        | [] => Option.none

/-- Rule (c): r'^(\d+)/(\d+)\s+(.*)', a bare fraction. -/
def qtyFrac (cs : List Char) : Option (ℚ × List Char) :=
  let (d1, r1) := digitsSplit cs
  if d1.isEmpty then Option.none
  else
    match r1 with
    | c :: r2 =>
      if c = '/' then
        let (d2, r3) := digitsSplit r2
        if d2.isEmpty then Option.none
        else
          let (w, r4) := wsSplit r3
          if w.isEmpty then Option.none
          else some ((digitsVal d1 : ℚ) / (digitsVal d2 : ℚ), pyStripL r4)
      else Option.none
    | [] => Option.none

/-- Value of float(group.replace(',', '.')) for a matched decimal group,
exact in ℚ (the theorems below only reach exactly-representable values). -/
def decVal (d1 d2 : List Char) : ℚ :=
  (digitsVal d1 : ℚ) + (digitsVal d2 : ℚ) / ((10 : ℚ) ^ d2.length)

/-- Rule (d): r'^(\d+[.,]?\d*)\s+(.*)', a decimal or integer; the optional
separator branch is retried without the separator when no whitespace
follows, mirroring the regex backtracking. -/
def qtyDec (cs : List Char) : Option (ℚ × List Char) :=
  let (d1, r1) := digitsSplit cs
  if d1.isEmpty then Option.none
  else
    let noSep : Option (ℚ × List Char) :=
      let (w, r2) := wsSplit r1
      if w.isEmpty then Option.none else some ((digitsVal d1 : ℚ), pyStripL r2)
    match r1 with
    | c :: r2 =>
      if c = '.' ∨ c = ',' then
        let (d2, r3) := digitsSplit r2
        let (w, r4) := wsSplit r3
        if w.isEmpty then noSep else some (decVal d1 d2, pyStripL r4)
      else noSep
    | [] => noSep

/-- The three numeric rules of _parse_qty in source order. -/
def qtyRules (cs : List Char) : Option ℚ × List Char :=
  match qtyMixed cs with
  | some (v, r) => (some v, r)
  | none =>
    match qtyFrac cs with
    | some (v, r) => (some v, r)
    | none =>
      match qtyDec cs with
      | some (v, r) => (some v, r)
      | none => (Option.none, cs)

/-- _parse_qty (main.py 298-316): vulgar-fraction glyph first (dict order),
then the numeric rules; no match leaves the text unchanged. -/
def parse_qty (cs : List Char) : Option ℚ × List Char :=
  match cs with
  | c :: rest =>
    match fracVal c with
    | some v => (some v, pyStripL rest)
    | none => qtyRules cs
  | [] => qtyRules []

/-- Tokens of a UNIT_MAP pattern: case-insensitive literal, optional single
character, \s* and \s+, and the template's trailing (?:de\s+)?. -/
inductive UTok where
  | l (s : String)
  | o (c : Char)
  | w0
  | w1
  | ode

/-- Deterministic matcher for a unit pattern (adequacy argument in the
section comment); returns the remainder matched by the final (.*). -/
def matchUPat : List UTok → List Char → Option (List Char)
  | [], cs => some cs
  | .l s :: ts, cs =>
    match ciStarts s.data cs with
    | some r => matchUPat ts r
    | none => Option.none
  | .o c :: ts, cs =>
    match cs with
    | c' :: r =>
      if lowerC c' = c then
        match matchUPat ts r with
        | some out => some out
        | none => matchUPat ts cs
      else matchUPat ts cs
    | [] => matchUPat ts []
  | .w0 :: ts, cs => matchUPat ts (cs.dropWhile isPySpace)
  | .w1 :: ts, cs =>
    let (w, r) := wsSplit cs
    if w.isEmpty then Option.none else matchUPat ts r
  | .ode :: ts, cs =>
    match ciStarts ['d', 'e'] cs with
    | some r =>
      let (w, r2) := wsSplit r
      if w.isEmpty then matchUPat ts cs else matchUPat ts r2
    | none => matchUPat ts cs

/-- UNIT_MAP (main.py 237-260) in dict (insertion) order; each pattern is the
token translation of the source regex, paired with its canonical unit. -/
def UNIT_MAP : List (List UTok × String) :=
  [ ([.l "taza", .o 's'], "taza"),
    ([.l "cucharada", .o 's', .w0, .l "sopera", .o 's'], "cucharada"),
    ([.l "cucharada", .o 's'], "cucharada"),
    ([.l "cucharadita", .o 's'], "cucharadita"),
    ([.l "cda", .o 's', .o '.'], "cucharada"),
    ([.l "cdta", .o 's', .o '.'], "cucharadita"),
    ([.l "cuchara", .w1, .l "sopera"], "cucharada"),
    ([.l "vaso", .o 's'], "vaso"),
    ([.l "vasito", .o 's'], "vasito"),
    ([.l "litro", .o 's'], "litro"),
    ([.l "ml", .o '.'], "ml"),
    ([.l "cl", .o '.'], "cl"),
    ([.l "cc", .o '.'], "cc"),
    ([.l "copa", .o 's'], "copa"),
    ([.l "gr", .o 's', .o '.'], "g"),
    ([.l "gm", .o 's', .o '.'], "g"),
    ([.l "gramo", .o 's'], "g"),
    ([.l "gr", .o '.'], "g"),
    ([.l "kg", .o 's', .o '.'], "kg"),
    ([.l "kilo", .o 's'], "kg"),
    ([.l "libra", .o 's'], "libra"),
    ([.l "lb", .o 's', .o '.'], "libra"),
    ([.l "onza", .o 's'], "onza"),
    ([.l "oz", .o '.'], "onza"),
    ([.l "lata", .o 's'], "lata"),
    ([.l "pote", .o 's'], "pote"),
    ([.l "sobre", .o 's'], "sobre"),
    ([.l "sobresito", .o 's'], "sobre"),
    ([.l "bolsa", .o 's'], "bolsa"),
    ([.l "paquete", .o 's'], "paquete"),
    ([.l "bote", .o 's'], "bote"),
    ([.l "tarro", .o 's'], "tarro"),
    ([.l "ud", .o '.'], "unidad"),
    ([.l "uds", .o '.'], "unidad"),
    ([.l "unidade", .o 's'], "unidad"),
    ([.l "pieza", .o 's'], "pieza"),
    ([.l "diente", .o 's'], "diente"),
    ([.l "hoja", .o 's'], "hoja"),
    ([.l "rama", .o 's'], "rama"),
    ([.l "ramita", .o 's'], "ramita"),
    ([.l "rodaja", .o 's'], "rodaja"),
    ([.l "rebanada", .o 's'], "rebanada"),
    ([.l "lonja", .o 's'], "lonja"),
    ([.l "loncha", .o 's'], "loncha"),
    ([.l "manojo", .o 's'], "manojo"),
    ([.l "mano", .o 's'], "mano"),
    ([.l "pellizco", .o 's'], "pellizco"),
    ([.l "pizca", .o 's'], "pizca"),
    ([.l "chorrito", .o 's'], "chorrito"),
    ([.l "chorro", .o 's'], "chorro"),
    ([.l "puñado", .o 's'], "puñado") ]

/-- One table entry against the template
r'^(pattern)\.?\s+(?:de\s+)?(.*)' (re.IGNORECASE); the matched remainder is
stripped like (m.group(2) or '').strip(). -/
def tryUnit (p : List UTok × String) (cs : List Char) : Option (String × List Char) :=
  (matchUPat (p.1 ++ [.o '.', .w1, .ode]) cs).map (fun r => (p.2, pyStripL r))

/-- _parse_unit (main.py 318-325): first matching table entry wins; otherwise
a case-sensitive leading "de " is stripped with no unit. -/
def parse_unit (cs : List Char) : Option String × List Char :=
  match UNIT_MAP.findSome? (fun p => tryUnit p cs) with
  | some (u, r) => (some u, r)
  | none =>
    match litStarts ['d', 'e', ' '] cs with
    | some r => (Option.none, pyStripL r)
    | none => (Option.none, cs)

/-- The pinch nouns of the idiomatic-quantity regex, in alternation order. -/
def pinchNouns : List String :=
  ["pizca", "pellizco", "chorrito", "chorro", "poco", "puñado"]

/-- r'^[Uu]n[ao]?\s+(pizca|pellizco|chorrito|chorro|poco|puñado)\s+de\s+(.*)'
(main.py 267; compiled without IGNORECASE — only the initial U/u may vary in
case).  Returns the matched noun and the remainder (.*). -/
def pinchMatch (cs : List Char) : Option (String × List Char) :=
  match cs with
  | c0 :: c1 :: rest =>
    if (c0 = 'U' ∨ c0 = 'u') ∧ c1 = 'n' then
      let afterOpt : Option (List Char) :=
        match rest with
        | c2 :: r2 =>
          if c2 = 'a' ∨ c2 = 'o' then
            let (w, r3) := wsSplit r2
            if w.isEmpty then
              let (w', r') := wsSplit rest
              if w'.isEmpty then Option.none else some r'
            else some r3
          else
            let (w', r') := wsSplit rest
            if w'.isEmpty then Option.none else some r'
        | [] => Option.none
      match afterOpt with
      | some r =>
        pinchNouns.findSome? (fun noun =>
          match litStarts noun.data r with
          | some r1 =>
            let (w1, r2) := wsSplit r1
            if w1.isEmpty then Option.none
            else
              match litStarts ['d', 'e'] r2 with
              | some r3 =>
                let (w2, r4) := wsSplit r3
                if w2.isEmpty then Option.none else some (noun, r4)
              | none => Option.none
          | none => Option.none)
      | none => Option.none
    else Option.none
  | _ => Option.none

/-- ParsedIngredient (the return dict of parse_ingredient). -/
structure ParsedIngredient where
  quantity : Option ℚ
  unit : Option String
  name : String
  notes : String
deriving DecidableEq

/-- The labeled-line branch r'^([^:]+):\s*(\d[\d.,/\s]*)\s*(.*)' with its
len(group(1)) > 3, quantity and non-empty-rest conditions (main.py 272-279);
none covers both regex failure and fall-through to the general path. -/
def labeledBranch (cs : List Char) : Option ParsedIngredient :=
  let pre := cs.takeWhile (fun c => c ≠ ':')
  match cs.drop pre.length with
  | ':' :: after =>
    if pre.isEmpty then Option.none
    else
      match after.dropWhile isPySpace with
      | d :: r2 =>
        if isDig d then
          let body := r2.takeWhile (fun c => isDig c ∨ c = '.' ∨ c = ',' ∨ c = '/' ∨ isPySpace c)
          let g3 := (r2.drop body.length).dropWhile isPySpace
          if 3 < pre.length then
            let name_part := pyStripL pre
            let (qty, _) := parse_qty (pyStripL (d :: body) ++ [' ', 'x'])
            let unit_rest := pyStripL g3
            match qty with
            | some q =>
              if unit_rest.isEmpty then Option.none
              else
                let (unit, extra) := parse_unit unit_rest
                some ⟨some q, unit,
                  String.mk (rstripSet ['.', ',', ';'] (pyStripL (name_part ++ ' ' :: extra))),
                  ""⟩
            | none => Option.none
          else Option.none
        else Option.none
      | [] => Option.none
  | _ => Option.none

/-- re.search(r'\(([^)]+)\)', s): leftmost parenthesized aside; [^)]+ only
matches the maximal non-')' run, and on failure the scan advances one
position. Returns (before, contents, after). -/
def parenGo (acc : List Char) : List Char → Option (List Char × List Char × List Char)
  | [] => Option.none
  | c :: cs =>
    if c = '(' then
      let body := cs.takeWhile (fun c' => c' ≠ ')')
      match cs.drop body.length with
      | ')' :: rest' =>
        if body.isEmpty then parenGo (c :: acc) cs
        else some (acc.reverse, body, rest')
      | _ => parenGo (c :: acc) cs
    else parenGo (c :: acc) cs

/-- Anchored attempt of r',?\s*(al? (?:su )?gusto)\.?$' (re.IGNORECASE) at
one position; returns the captured group (original case) when the suffix
matches up to the end of the text. -/
def gustoCore : List Char → Option (List Char)
  | a :: r1 =>
    if lowerC a = 'a' then
      let cont : Option (List Char × List Char) :=
        match r1 with
        | lc :: sp :: r3 =>
          if lowerC lc = 'l' ∧ sp = ' ' then some ([lc, sp], r3)
          else if lc = ' ' then some ([lc], sp :: r3)
          else Option.none
        | [lc] => if lc = ' ' then some ([lc], []) else Option.none
        | [] => Option.none
      match cont with
      | some (g1, r4) =>
        let tryG (gpre : List Char) (r : List Char) : Option (List Char) :=
          match ciStarts ['g', 'u', 's', 't', 'o'] r with
          | some r6 =>
            match r6 with
            | [] => some (a :: g1 ++ gpre ++ r.take 5)
            | ['.'] => some (a :: g1 ++ gpre ++ r.take 5)
            | _ => Option.none
          | none => Option.none
        let su : Option (List Char × List Char) :=
          match r4 with
          | s' :: u :: sp :: r5 =>
            if lowerC s' = 's' ∧ lowerC u = 'u' ∧ sp = ' ' then some ([s', u, sp], r5)
            else Option.none
          | _ => Option.none
        match su with
        | some (g2, r5) =>
          match tryG g2 r5 with
          | some g => some g
          | none => tryG [] r4
        | none => tryG [] r4
      | none => Option.none
    else Option.none
  | [] => Option.none

/-- Anchored attempt at one position: the optional leading comma and the
leading \s* are consumed here, then gustoCore handles the rest. -/
def gustoAt (cs : List Char) : Option (List Char) :=
  let s1 := match cs with
    | c :: r => if c = ',' then r else c :: r
    | [] => []
  gustoCore (s1.dropWhile isPySpace)

/-- re.search of the to-taste pattern: leftmost start position whose suffix
matches; returns (text before the match, captured group). -/
def gustoGo (acc : List Char) : List Char → Option (List Char × List Char)
  | [] => Option.none
  | c :: rest =>
    match gustoAt (c :: rest) with
    | some g => some (acc.reverse, g)
    | none => gustoGo (c :: acc) rest

/-- parse_ingredient (main.py 262-296). -/
def parse_ingredient (s : String) : ParsedIngredient :=
  let text := pyStripL s.data
  if text.isEmpty then ⟨Option.none, Option.none, "", ""⟩
  else
    match pinchMatch text with
    | some (noun, r) =>
      ⟨some 1, some noun, String.mk (rstripSet ['.', ',', ';'] (pyStripL r)), ""⟩
    | none =>
      match labeledBranch text with
      | some pi => pi
      | none =>
        let (quantity, rest) := parse_qty text
        let (unit, rest) := parse_unit rest
        let (notes, rest) :=
          match parenGo [] rest with
          | some (before, contents, after) =>
            (String.mk contents, pyStripL before ++ ' ' :: pyStripL after)
          | none => ("", rest)
        let (notes, rest) :=
          match gustoGo [] rest with
          | some (before, g) =>
            (String.mk (stripSet [',', ' '] (notes.data ++ (", ").data ++ g)),
              pyStripL before)
          | none => (notes, rest)
        ⟨quantity, unit, String.mk (rstripSet ['.', ',', ';', ':'] (pyStripL rest)), notes⟩

/-! ## The four extraction tiers and the orchestrator (scrapers.py 136-541)

The HTML/DOM collaborators (recipe_scrapers, BeautifulSoup queries,
requests) are the external boundary: their outputs are the inputs of the
embedded tier functions, and everything the Python code does from those
outputs onward is modelled concretely.  Except Unit models a raised
exception; a raised accessor inside a per-field try block becomes "field
absent", while one outside any inner handler aborts the tier. -/

/-- The per-tier result dict (every tier builds these keys; Tier 4 has no
total_time key, modelled as none). -/
structure Data where
  title : String
  description : String
  servings : Option Int
  prep_time : Option Int
  cook_time : Option Int
  total_time : Option Int
  ingredients : List String
  steps : List String
  image_url : String
deriving DecidableEq

/-- Python truthiness of an optional minute count (0 is falsy). -/
def truthyI : Option Int → Bool
  | Option.none => false
  | some n => n ≠ 0

/-- The minimum-viability test each tier ends with:
data['title'] and (data['ingredients'] or data['steps']). -/
def validB (d : Data) : Bool :=
  d.title ≠ "" && (!d.ingredients.isEmpty || !d.steps.isEmpty)

/-- return data if valid else None. -/
def validGate (d : Data) : Option Data := if validB d then some d else Option.none

/-- The accessor surface of the recipe_scrapers library object (Tier 1
collaborator): each accessor may raise or return an optional value. -/
structure LibScraper where
  title : Except Unit (Option String)
  description : Except Unit (Option String)
  yields : Except Unit (Option String)
  prep_time : Except Unit (Option Int)
  cook_time : Except Unit (Option Int)
  total_time : Except Unit (Option Int)
  ingredients : Except Unit (Option (List String))
  instructions_list : Except Unit (Option (List String))
  instructions : Except Unit (Option String)
  image : Except Unit (Option String)

/-- _scrape_with_library (scrapers.py 136-201).  lib = none models
scrape_html itself raising (unsupported site); a raising title accessor is
outside the per-field try blocks, so it aborts the tier. -/
def scrape_with_library (lib : Option LibScraper) : Option Data :=
  match lib with
  | Option.none => Option.none
  | some sc =>
    match sc.title with
    | .error _ => Option.none
    | .ok t =>
      let title := t.getD ""
      let description := match sc.description with
        | .ok d => d.getD ""
        | .error _ => ""
      let servings : Option Int := match sc.yields with
        | .ok (some y) =>
          if y ≠ "" then (firstDigitRun y.data).map (fun n => (n : Int)) else Option.none
        | _ => Option.none
      let prep := match sc.prep_time with
        | .ok v => v
        | .error _ => Option.none
      let cook := match sc.cook_time with
        | .ok v => v
        | .error _ => Option.none
      let total := match sc.total_time with
        | .ok v => v
        | .error _ => Option.none
      let cook := if truthyI total && !truthyI prep && !truthyI cook then total else cook
      let ingredients := match sc.ingredients with
        | .ok v => v.getD []
        | .error _ => []
      let steps := match sc.instructions_list with
        | .error _ => []
        | .ok il =>
          let l := il.getD []
          if !l.isEmpty then l
          else
            match sc.instructions with
            | .error _ => []
            | .ok r =>
              let raw := r.getD ""
              if raw ≠ "" then ((raw.splitOn "\n").map pyStrip).filter (· ≠ "") else []
      let image := match sc.image with
        | .ok v => v.getD ""
        | .error _ => ""
      validGate ⟨title, description, servings, prep, cook, total, ingredients, steps, image⟩

/-- parse_iso_duration applied to a dynamic value: the falsy guard fires
before .strip(), so a truthy non-string raises AttributeError. -/
def pid_val : PyVal → Except Unit (Option Int)
  | .str s => .ok (parse_iso_duration s)
  | v => if pyFalsy v then .ok Option.none else .error ()

/-- 'Recipe' in str(x.get('@type', '')). -/
def typeHasRecipe (kvs : List (String × PyVal)) : Bool :=
  containsSub "Recipe".data (pyStr (dictGetD kvs "@type" (.str ""))).data

/-- The @graph unwrapping of a JSON-LD payload. -/
def jsonldGraph (payload : PyVal) : PyVal :=
  match payload with
  | .dict kvs =>
    match dictGet kvs "@graph" with
    | some g => g
    | none => .dict kvs
  | x => x

/-- Collect the Recipe candidates of one payload (array or single object). -/
def jsonldRecipes (payload : PyVal) : List (List (String × PyVal)) :=
  match payload with
  | .list items =>
    items.filterMap (fun it =>
      match it with
      | .dict kvs => if typeHasRecipe kvs then some kvs else Option.none
      | _ => Option.none)
  | .dict kvs => if typeHasRecipe kvs then [kvs] else []
  | _ => []

/-- The candidate dict built for one JSON-LD Recipe object (the body of the
inner loop of _scrape_jsonld, scrapers.py 234-257). -/
def jsonldCandidate (uj : String → String → String) (url : String)
    (recipe : List (String × PyVal)) : Except Unit Data := do
  let title := clean_text (dictGetD recipe "name" (.str ""))
  let description := clean_text (dictGetD recipe "description" (.str ""))
  let servings := extract_servings ((dictGet recipe "recipeYield").getD .none)
  let prep ← pid_val (dictGetD recipe "prepTime" (.str ""))
  let cook ← pid_val (dictGetD recipe "cookTime" (.str ""))
  let total ← pid_val (dictGetD recipe "totalTime" (.str ""))
  let ingredients ← normalize_ingredients (dictGetD recipe "recipeIngredient" (.list []))
  let steps ← normalize_steps (dictGetD recipe "recipeInstructions" (.list []))
  let img := dictGetD recipe "image" (.str "")
  let img := match img with
    | .list l => l.headD (.str "")
    | x => x
  let img := match img with
    | .dict kvs => pyOr (dictGetD kvs "url" (.str "")) (dictGetD kvs "contentUrl" (.str ""))
    | x => x
  let image_url := resolve_url uj (pyStr img) url
  let cook := if truthyI total && !truthyI prep && !truthyI cook then total else cook
  pure ⟨title, description, servings, prep, cook, total, ingredients, steps, image_url⟩

/-- The inner loop over Recipe candidates: first valid candidate wins. -/
def jsonldRecLoop (uj : String → String → String) (url : String) :
    List (List (String × PyVal)) → Except Unit (Option Data)
  | [] => .ok Option.none
  | r :: rest => do
    let d ← jsonldCandidate uj url r
    match validGate d with
    | some d' => .ok (some d')
    | none => jsonldRecLoop uj url rest

/-- The outer loop over script blocks; a none script models an empty or
non-JSON block (json.JSONDecodeError → continue). -/
def jsonldScriptLoop (uj : String → String → String) (url : String) :
    List (Option PyVal) → Except Unit (Option Data)
  | [] => .ok Option.none
  | Option.none :: rest => jsonldScriptLoop uj url rest
  | some payload :: rest => do
    let r ← jsonldRecLoop uj url (jsonldRecipes (jsonldGraph payload))
    match r with
    | some d => .ok (some d)
    | none => jsonldScriptLoop uj url rest

/-- _scrape_jsonld (scrapers.py 208-269); any exception other than a JSON
decode error reaches the outer handler and yields None for the tier. -/
def scrape_jsonld (uj : String → String → String) (url : String)
    (scripts : List (Option PyVal)) : Option Data :=
  match jsonldScriptLoop uj url scripts with
  | .ok r => r
  | .error _ => Option.none

/-- A BeautifulSoup element as the microdata tier sees it: its attributes
and its get_text() value. -/
structure Elem where
  attrs : List (String × String)
  text : String
deriving DecidableEq

/-- el.get(k) — None when the attribute is absent. -/
def elGet (el : Elem) (k : String) : Option String :=
  (el.attrs.find? (fun kv => kv.1 = k)).map (·.2)

/-- x or y for an optional string x (empty string is falsy). -/
def orStr (x : Option String) (y : String) : String :=
  match x with
  | some s => if s ≠ "" then s else y
  | Option.none => y

/-- The query results the microdata tier reads from the located Recipe
element: one find per itemprop, the find_all lists, and the two nested
queries used by the single-instruction fallback (the BS4 query engine is
the collaborator boundary). -/
structure MicroScope where
  nameEl : Option Elem
  descEl : Option Elem
  yieldEl : Option Elem
  prepEl : Option Elem
  cookEl : Option Elem
  totalEl : Option Elem
  ingEls : List Elem
  ingElsLegacy : List Elem
  stepEls : List Elem
  stepTextChildren : List Elem
  stepLis : List Elem
  imgEl : Option Elem

/-- One itemprop time element: content or datetime or get_text(), parsed as
an ISO duration (scrapers.py 316-320). -/
def microTime (el : Option Elem) : Option Int :=
  match el with
  | some el =>
    parse_iso_duration (orStr (elGet el "content") (orStr (elGet el "datetime") el.text))
  | Option.none => Option.none

/-- _scrape_microdata (scrapers.py 276-366); md = none models the absence of
any schema.org/Recipe container. -/
def scrape_microdata (uj : String → String → String) (url : String)
    (md : Option MicroScope) : Option Data :=
  match md with
  | Option.none => Option.none
  | some sc =>
    let title := match sc.nameEl with
      | some el => cleanStr el.text
      | Option.none => ""
    let description := match sc.descEl with
      | some el => cleanStr el.text
      | Option.none => ""
    let servings := match sc.yieldEl with
      | some el => extract_servings (.str (orStr (elGet el "content") el.text))
      | Option.none => Option.none
    let prep := microTime sc.prepEl
    let cook := microTime sc.cookEl
    let total := microTime sc.totalEl
    let cook := if truthyI total && !truthyI prep && !truthyI cook then total else cook
    let ingEls := if !sc.ingEls.isEmpty then sc.ingEls else sc.ingElsLegacy
    let ingredients := (ingEls.map (fun el => cleanStr el.text)).filter (· ≠ "")
    let stepEls :=
      if sc.stepEls.length = 1 then
        if !sc.stepTextChildren.isEmpty then sc.stepTextChildren
        else if !sc.stepLis.isEmpty then sc.stepLis
        else sc.stepEls
      else sc.stepEls
    let steps := (stepEls.map (fun el => cleanStr el.text)).filter (· ≠ "")
    let image := match sc.imgEl with
      | some el =>
        resolve_url uj (orStr (elGet el "src") (orStr (elGet el "content") ((elGet el "href").getD ""))) url
      | Option.none => ""
    validGate ⟨title, description, servings, prep, cook, total, ingredients, steps, image⟩

/-- _INGREDIENT_SELECTORS (scrapers.py 374-379). -/
def INGREDIENT_SELECTORS : List String :=
  [".recipe-ingredients li", ".ingredients li", ".ingredient-list li",
   ".wprm-recipe-ingredient", ".tasty-recipe-ingredients li",
   "[class*=\x22ingredient\x22] li", ".recipe__ingredients li",
   ".ingredientes li", ".lista-ingredientes li"]

/-- _STEP_SELECTORS (scrapers.py 381-387). -/
def STEP_SELECTORS : List String :=
  [".recipe-instructions li", ".instructions li", ".directions li",
   ".wprm-recipe-instruction", ".tasty-recipe-instructions li",
   "[class*=\x22instruction\x22] li", "[class*=\x22direction\x22] li",
   ".recipe__instructions li", ".preparacion li", ".pasos li",
   ".recipe-instructions p", ".instructions p"]

/-- The soup queries the heuristic tier makes; select is the CSS-selector
oracle (soup.select may raise, whereupon the loop continues). -/
structure HeurPage where
  ogTitle : Option Elem
  h1 : Option Elem
  ogDesc : Option Elem
  metaDesc : Option Elem
  ogImg : Option Elem
  select : String → Except Unit (List Elem)

/-- The selector loop: the first selector returning at least minCount
elements is cleaned, filtered and assigned (then break), even when the
filtered result is empty. -/
def selScan (select : String → Except Unit (List Elem)) (minCount : Nat) :
    List String → List String
  | [] => []
  | sel :: rest =>
    match select sel with
    | .error _ => selScan select minCount rest
    | .ok els =>
      if !els.isEmpty && minCount ≤ els.length then
        (els.map (fun e => cleanStr e.text)).filter (· ≠ "")
      else selScan select minCount rest

/-- _scrape_heuristic (scrapers.py 389-451).  Its dict has no total_time
key; total_time is therefore none in the result. -/
def scrape_heuristic (uj : String → String → String) (url : String)
    (hp : HeurPage) : Option Data :=
  let tX : Option String := hp.ogTitle.bind (fun el => elGet el "content")
  let h1txt := match hp.h1 with
    | some el => el.text
    | Option.none => ""
  let title := cleanStr (orStr tX h1txt)
  let dX : Option String := hp.ogDesc.bind (fun el => elGet el "content")
  let dY : Option String := match hp.metaDesc with
    | some el => elGet el "content"
    | Option.none => some ""
  let descArg : PyVal := match dX with
    | some c =>
      if c ≠ "" then .str c
      else
        match dY with
        | some s => .str s
        | Option.none => .none
    | Option.none =>
      match dY with
      | some s => .str s
      | Option.none => .none
  let description := clean_text descArg
  let image := match hp.ogImg with
    | some el => resolve_url uj ((elGet el "content").getD "") url
    | Option.none => ""
  let ingredients := selScan hp.select 2 INGREDIENT_SELECTORS
  let steps := selScan hp.select 1 STEP_SELECTORS
  validGate ⟨title, description, Option.none, Option.none, Option.none, Option.none,
    ingredients, steps, image⟩

/-! ## scrape_recipe (scrapers.py 484-541) -/

/-- The scheme and netloc fields of urllib.parse.urlparse: the prefix before
the first colon is the (lowercased) scheme when it is a nonempty run of
scheme characters starting with an ASCII letter; the netloc follows a
leading // up to the next /, ? or #. -/
def isAsciiAlpha (c : Char) : Bool :=
  (65 ≤ c.toNat ∧ c.toNat ≤ 90) ∨ (97 ≤ c.toNat ∧ c.toNat ≤ 122)

/-- Characters admissible in a URL scheme. -/
def isSchemeChar (c : Char) : Bool :=
  isAsciiAlpha c || isDig c || c = '+' || c = '-' || c = '.'

/-- The (scheme, netloc) projection of urlparse. -/
structure UrlParts where
  scheme : String
  netloc : String
deriving DecidableEq

/-- The scheme split of urlsplit: the prefix before the first colon becomes
the lowercased scheme when it is a run of scheme characters starting with an
ASCII letter; otherwise the scheme is empty and nothing is consumed. -/
def schemeSplit (cs : List Char) : String × List Char :=
  let pre := cs.takeWhile (fun c => c ≠ ':')
  match cs.drop pre.length with
  | ':' :: after =>
    if (match pre with
        | c :: _ => isAsciiAlpha c
        | [] => false) && pre.all isSchemeChar
    then (String.mk (pre.map lowerC), after)
    else ("", cs)
  | _ => ("", cs)

/-- _splitnetloc: the netloc runs up to the next /, ? or #. -/
def netChunk (r : List Char) : List Char :=
  r.takeWhile (fun c => c ≠ '/' ∧ c ≠ '?' ∧ c ≠ '#')

/-- netloc.partition('[')[2].partition(']')[0] — the host between the
brackets, handed to the stdlib bracketed-host validation. -/
def bracketedHost (netloc : List Char) : List Char :=
  ((netloc.dropWhile (fun c => c ≠ '[')).drop 1).takeWhile (fun c => c ≠ ']')

/-- The netloc part of urlsplit, including its raising paths: a netloc
holding one bracket without the other raises ValueError("Invalid IPv6 URL");
a netloc holding both hands the bracketed host to the stdlib validation
_check_bracketed_host, whose version-dependent verdict is the parameter
`bh` (true = accepted), raising when it rejects. -/
def netlocParse (bh : List Char → Bool) (scheme : String) :
    List Char → Except Unit UrlParts
  | '/' :: '/' :: r =>
    if ((netChunk r).contains '[' && !(netChunk r).contains ']') ||
        ((netChunk r).contains ']' && !(netChunk r).contains '[') then .error ()
    else if (netChunk r).contains '[' && (netChunk r).contains ']' then
      if bh (bracketedHost (netChunk r)) then .ok ⟨scheme, String.mk (netChunk r)⟩
      else .error ()
    else .ok ⟨scheme, String.mk (netChunk r)⟩
  | _ => .ok ⟨scheme, ""⟩

/-- urllib.parse.urlparse restricted to the two fields scrape_recipe reads,
with its ValueError paths modelled as .error (e.g. on "http://["). -/
def pyUrlparse (bh : List Char → Bool) (s : String) : Except Unit UrlParts :=
  netlocParse bh (schemeSplit s.data).1 (schemeSplit s.data).2

/-- The content inputs of one fetched page: the Tier-1 library object, the
JSON payloads of the ld+json script blocks, the microdata query results and
the heuristic soup queries. -/
structure Page where
  lib : Option LibScraper
  scripts : List (Option PyVal)
  micro : Option MicroScope
  heur : HeurPage

/-- The outcome of the single requests.get call. -/
inductive FetchOutcome where
  | timeout
  | connError
  | httpError (status : Nat)
  | otherExc (msg : String)
  | ok (page : Page)

/-- ScrapeResult reduced to its observable outcome. -/
inductive ScrapeOutcome where
  | failure (error : String)
  | success (data : Data) (method : String)
deriving DecidableEq

/-- The NoRecipeFound message (scrapers.py 537-540). -/
def noRecipeMsg : String :=
  "No se pudo extraer la receta. Es posible que la página no contenga una receta reconocible o que use un formato no compatible."

/-- The four-tier fallback chain of scrape_recipe over one fetched page
(scrapers.py 517-540): first tier returning a value wins, with its method
tag; NoRecipeFound when all four return None. -/
def tiersFold (uj : String → String → String) (url : String) (page : Page) :
    ScrapeOutcome :=
  match scrape_with_library page.lib with
  | some d => .success d "recipe-scrapers"
  | Option.none =>
    match scrape_jsonld uj url page.scripts with
    | some d => .success d "json-ld"
    | Option.none =>
      match scrape_microdata uj url page.micro with
      | some d => .success d "microdata"
      | Option.none =>
        match scrape_heuristic uj url page.heur with
        | some d => .success d "heuristic"
        | Option.none => .failure noRecipeMsg

/-- The scheme/netloc checks and the fetch error taxonomy of scrape_recipe
once the URL has been parsed without raising (scrapers.py 495-513). -/
def gateBody (uj : String → String → String) (url : String)
    (parsed : UrlParts) (fetch : FetchOutcome) : Except Unit ScrapeOutcome :=
  if ¬ (parsed.scheme = "http" ∨ parsed.scheme = "https") then
    .ok (.failure "URL inválida: solo se soporta HTTP/HTTPS")
  else if parsed.netloc = "" then
    .ok (.failure "URL inválida: falta el dominio")
  else
    .ok (match fetch with
      | .timeout => .failure "Timeout: la página tardó demasiado en responder"
      | .connError => .failure "No se pudo conectar a la página"
      | .httpError c => .failure ("Error HTTP: " ++ toString c)
      | .otherExc m => .failure ("Error al descargar la página: " ++ m)
      | .ok page => tiersFold uj url page)

/-- scrape_recipe (scrapers.py 484-541): the urlparse calls (scrapers.py
490-493, outside any try — both can raise), the https default, the URL
validation, the fetch error taxonomy, then the four tiers in order over the
one fetched page. -/
def scrape_recipe (bh : List Char → Bool) (uj : String → String → String)
    (url : String) (fetch : FetchOutcome) : Except Unit ScrapeOutcome :=
  match pyUrlparse bh url with
  | .error e => .error e
  | .ok parsed0 =>
    if parsed0.scheme = "" then
      match pyUrlparse bh ("https://" ++ url) with
      | .error e => .error e
      | .ok parsed => gateBody uj ("https://" ++ url) parsed fetch
    else gateBody uj url parsed0 fetch

/-! ## Support definitions for the theorems -/

/-- One optional duration component as written in an ISO string: its digit
run followed by its letter. -/
def renderComp (x : Option (List Char)) (letter : Char) : List Char :=
  match x with
  | some ds => ds ++ [letter]
  | Option.none => []

/-- A duration string P[nD]T[nH][nM][nS] with every component (and the T)
optional, built from the digit runs of its components. -/
def renderISO (dd hh mm ss : Option (List Char)) (t : Bool) : List Char :=
  'P' :: (renderComp dd 'D' ++ ((if t then ['T'] else []) ++
    (renderComp hh 'H' ++ renderComp mm 'M' ++ renderComp ss 'S')))

/-- Numeric value of an optional component (0 when absent). -/
def compVal (x : Option (List Char)) : Nat :=
  match x with
  | some ds => digitsVal ds
  | Option.none => 0

/-- A well-formed component: absent, or a non-empty ASCII digit run. -/
def goodComp (x : Option (List Char)) : Prop :=
  ∀ ds, x = some ds → ds ≠ [] ∧ ∀ c ∈ ds, isDig c = true

/-- The URL-validation gate of scrape_recipe: both urlparse calls return
without raising, the scheme (after the https default) is http or https, and
the netloc is non-empty. -/
def urlGate (bh : List Char → Bool) (url : String) : Bool :=
  match pyUrlparse bh url with
  | .error _ => false
  | .ok parsed0 =>
    if parsed0.scheme = "" then
      match pyUrlparse bh ("https://" ++ url) with
      | .error _ => false
      | .ok parsed =>
        (parsed.scheme = "http" || parsed.scheme = "https") && parsed.netloc ≠ ""
    else
      (parsed0.scheme = "http" || parsed0.scheme = "https") && parsed0.netloc ≠ ""

/-- The restricted ingredient-list elements claim C7 quantifies over: plain
strings and quantity/unitText/name records with an optional explicit
full-text field. -/
inductive IngIn where
  | plain (s : String)
  | record (text quantity unitText name : Option String)

/-- The key/value list a record embeds to: exactly its present keys, in a
fixed order. -/
def ingKvs (text quantity unitText name : Option String) :
    List (String × PyVal) :=
  (match text with
    | some s => [("text", PyVal.str s)]
    | Option.none => []) ++
  (match quantity with
    | some s => [("quantity", PyVal.str s)]
    | Option.none => []) ++
  (match unitText with
    | some s => [("unitText", PyVal.str s)]
    | Option.none => []) ++
  (match name with
    | some s => [("name", PyVal.str s)]
    | Option.none => [])

/-- Embedding of the restricted elements into the dynamic values the source
receives. -/
def IngIn.toPyVal : IngIn → PyVal
  | .plain s => .str s
  | .record text quantity unitText name => .dict (ingKvs text quantity unitText name)

/-- A concrete urljoin stand-in for witnesses (the claims constrain no
urljoin behaviour). -/
def ujId : String → String → String := fun _ u => u

/-- A heuristic page with no matching query. -/
def heurEmpty : HeurPage :=
  ⟨Option.none, Option.none, Option.none, Option.none, Option.none, fun _ => .ok []⟩

/-- A fetched page with no recipe content at all. -/
def pageEmpty : Page := ⟨Option.none, [], Option.none, heurEmpty⟩

/-- A library scraper returning a title and one ingredient (a minimally
valid Tier-1 result). -/
def libOk : LibScraper :=
  ⟨.ok (some "Tarta"), .ok Option.none, .ok Option.none, .ok Option.none,
   .ok Option.none, .ok Option.none, .ok (some ["agua"]), .ok Option.none,
   .ok Option.none, .ok Option.none⟩

/-- A page whose Tier-1 library call succeeds. -/
def pageLib : Page := ⟨some libOk, [], Option.none, heurEmpty⟩

/-- A library scraper reporting prep_time = 0 (present, non-null), no
cook_time and total_time = 30. -/
def libZeroPrep : LibScraper :=
  ⟨.ok (some "Tarta"), .ok Option.none, .ok Option.none, .ok (some 0),
   .ok Option.none, .ok (some 30), .ok (some ["agua"]), .ok Option.none,
   .ok Option.none, .ok Option.none⟩

/-- The exact value of the Python float 2.5, in kernel-reducible form. -/
def q52 : ℚ := Rat.mk' 5 2 (by decide) (by decide)

/-- The URL actually used after the bare-host default (the url reassignment
at the top of scrape_recipe). -/
def effectiveUrl (bh : List Char → Bool) (url : String) : String :=
  match pyUrlparse bh url with
  | .ok parsed0 => if parsed0.scheme = "" then "https://" ++ url else url
  | .error _ => url

/-- A concrete bracketed-host verdict for witnesses (the claims constrain
no behaviour of the stdlib bracketed-host validation). -/
def bhAny : List Char → Bool := fun _ => true

/-- The Tier-1 result produced from libOk. -/
def dataLib : Data :=
  ⟨"Tarta", "", Option.none, Option.none, Option.none, Option.none, ["agua"], [], ""⟩

/-- The Tier-1 result produced from libZeroPrep: the zero prep_time is falsy,
so the backfill fires and cook_time becomes 30. -/
def dataZeroPrep : Data :=
  ⟨"Tarta", "", Option.none, some 0, some 30, some 30, ["agua"], [], ""⟩

/-- A JSON-LD Recipe with only a totalTime. -/
def recipeTotalOnly : List (String × PyVal) :=
  [("name", .str "Tarta"), ("totalTime", .str "PT30M"),
   ("recipeIngredient", .list [.str "agua"])]

/-- The candidate built from recipeTotalOnly: cook_time backfilled from
total_time. -/
def dataTotalOnly : Data :=
  ⟨"Tarta", "", Option.none, Option.none, some 30, some 30, ["agua"], [], ""⟩

/-- A microdata scope with a name, one ingredient and only a totalTime
element. -/
def microTotalOnly : MicroScope :=
  ⟨some ⟨[], "Tarta"⟩, Option.none, Option.none, Option.none, Option.none,
   some ⟨[("content", "PT30M")], ""⟩, [⟨[], "agua"⟩], [], [], [], [],
   Option.none⟩

/-- The character class of a line consisting solely of a number: digits and
the three separators the numeric grammar knows. -/
def numChar (c : Char) : Bool :=
  isDig c || c = '/' || c = '.' || c = ','

/-- A present, non-empty optional field contributes itself. -/
def presentField : Option String → List String
  | some s => if s = "" then [] else [s]
  | Option.none => []

/-- The text an element resolves to, in the words of the specification: a
plain string is cleaned; a record prefers its explicit (non-empty) full-text
field and otherwise concatenates, in order, its present non-empty quantity,
unit and name fields; the assembled string is cleaned. -/
def specIngredientText : IngIn → String
  | .plain s => cleanStr s
  | .record text quantity unitText name =>
    let fields := presentField quantity ++ presentField unitText ++ presentField name
    let base := match text with
      | some s => if s ≠ "" then s else String.intercalate " " fields
      | Option.none => String.intercalate " " fields
    cleanStr base

/-! # Supporting lemmas -/

theorem dropWhile_eq_self_of {p : Char → Bool} {l : List Char}
    (h : ∀ c ∈ l, p c = false) : l.dropWhile p = l := by
  cases l with
  | nil => rfl
  | cons c cs => simp [List.dropWhile_cons, h c (List.mem_cons_self c cs)]

theorem pyStripL_eq_self {l : List Char} (h : ∀ c ∈ l, isPySpace c = false) :
    pyStripL l = l := by
  unfold pyStripL
  rw [dropWhile_eq_self_of h,
    dropWhile_eq_self_of (fun c hc => h c (List.mem_reverse.mp hc)),
    List.reverse_reverse]

theorem takeWhile_digits_append {ds : List Char} {c : Char} {rest : List Char}
    (hds : ∀ c' ∈ ds, isDig c' = true) (hc : isDig c = false) :
    ((ds ++ c :: rest).takeWhile isDig) = ds := by
  induction ds with
  | nil => simp [List.takeWhile_cons, hc]
  | cons d ds' ih =>
    simp only [List.cons_append, List.takeWhile_cons,
      hds d (List.mem_cons_self d ds'), if_true]
    rw [ih (fun c' hc' => hds c' (List.mem_cons_of_mem d hc'))]

theorem dropWhile_digits_append {ds : List Char} {c : Char} {rest : List Char}
    (hds : ∀ c' ∈ ds, isDig c' = true) (hc : isDig c = false) :
    ((ds ++ c :: rest).dropWhile isDig) = c :: rest := by
  induction ds with
  | nil => simp [List.dropWhile_cons, hc]
  | cons d ds' ih =>
    simp only [List.cons_append, List.dropWhile_cons,
      hds d (List.mem_cons_self d ds'), if_true]
    exact ih (fun c' hc' => hds c' (List.mem_cons_of_mem d hc'))

theorem digitsSplit_append {ds : List Char} {c : Char} {rest : List Char}
    (hds : ∀ c' ∈ ds, isDig c' = true) (hc : isDig c = false) :
    digitsSplit (ds ++ c :: rest) = (ds, c :: rest) := by
  unfold digitsSplit
  rw [takeWhile_digits_append hds hc, dropWhile_digits_append hds hc]

theorem digitsSplit_nondigit {c : Char} {rest : List Char} (hc : isDig c = false) :
    digitsSplit (c :: rest) = ([], c :: rest) := by
  simp [digitsSplit, List.takeWhile_cons, List.dropWhile_cons, hc]

theorem isDig_bounds {c : Char} (h : isDig c = true) :
    48 ≤ c.toNat ∧ c.toNat ≤ 57 := by
  simpa [isDig] using h

theorem lowerC_digit {c : Char} (h : isDig c = true) : lowerC c = c := by
  obtain ⟨h1, h2⟩ := isDig_bounds h
  unfold lowerC
  rw [if_neg (by omega), if_neg]
  intro hEq
  subst hEq
  exact absurd h2 (by decide)

theorem digit_ne_of_toNat {c c' : Char} (h : isDig c = true)
    (h2 : c'.toNat < 48 ∨ 57 < c'.toNat) : c ≠ c' := by
  obtain ⟨hl, hr⟩ := isDig_bounds h
  intro hEq
  subst hEq
  omega

theorem lowerC_digit_ne {c c' : Char} (h : isDig c = true)
    (h2 : c'.toNat < 48 ∨ 57 < c'.toNat) : lowerC c ≠ c' := by
  rw [lowerC_digit h]
  exact digit_ne_of_toNat h h2

theorem isPySpace_digit {c : Char} (h : isDig c = true) : isPySpace c = false := by
  obtain ⟨h1, h2⟩ := isDig_bounds h
  simp only [isPySpace, decide_eq_false_iff_not]
  push_neg
  refine ⟨?_, ?_, ?_, ?_, ?_, ?_⟩ <;>
    (intro hEq; subst hEq; revert h1 h2; decide)

/-! ## groupNum lemmas for the duration regex -/

theorem groupNum_nil (L : Char) : groupNum L [] = (0, []) := rfl

theorem groupNum_nondigit {L c : Char} {rest : List Char} (hc : isDig c = false) :
    groupNum L (c :: rest) = (0, c :: rest) := by
  unfold groupNum
  rw [digitsSplit_nondigit hc]

theorem groupNum_hit {L : Char} {ds : List Char} {c : Char} {rest : List Char}
    (hne : ds ≠ []) (hdig : ∀ c' ∈ ds, isDig c' = true)
    (hc : isDig c = false) (hL : lowerC c = L) :
    groupNum L (ds ++ c :: rest) = (digitsVal ds, rest) := by
  unfold groupNum
  rw [digitsSplit_append hdig hc]
  cases ds with
  | nil => exact absurd rfl hne
  | cons d ds' => simp [hL]

theorem groupNum_wrongLetter {L : Char} {ds : List Char} {c : Char} {rest : List Char}
    (hne : ds ≠ []) (hdig : ∀ c' ∈ ds, isDig c' = true)
    (hc : isDig c = false) (hL : lowerC c ≠ L) :
    groupNum L (ds ++ c :: rest) = (0, ds ++ c :: rest) := by
  unfold groupNum
  rw [digitsSplit_append hdig hc]
  cases ds with
  | nil => exact absurd rfl hne
  | cons d ds' => simp [hL]

/-! ## The suffix chains of a rendered duration -/

theorem groupNum_RS_hit {ss : Option (List Char)} (h : goodComp ss) :
    groupNum 's' (renderComp ss 'S') = (compVal ss, []) := by
  cases ss with
  | none => rfl
  | some ds =>
    obtain ⟨hne, hdig⟩ := h ds rfl
    simpa [renderComp, compVal] using
      @groupNum_hit 's' _ _ [] hne hdig (by decide) (by decide)

theorem groupNum_RS_skip {L : Char} {ss : Option (List Char)} (h : goodComp ss)
    (hL : L ≠ 's') :
    groupNum L (renderComp ss 'S') = (0, renderComp ss 'S') := by
  cases ss with
  | none => rfl
  | some ds =>
    obtain ⟨hne, hdig⟩ := h ds rfl
    simpa [renderComp] using
      @groupNum_wrongLetter L _ _ [] hne hdig (by decide)
        (by rw [show lowerC 'S' = 's' from by decide]; exact fun hq => hL hq.symm)

theorem groupNum_RM_hit {mm ss : Option (List Char)} (hm : goodComp mm)
    (hs : goodComp ss) :
    groupNum 'm' (renderComp mm 'M' ++ renderComp ss 'S') =
      (compVal mm, renderComp ss 'S') := by
  cases mm with
  | none => simpa [renderComp, compVal] using groupNum_RS_skip hs (by decide)
  | some ds =>
    obtain ⟨hne, hdig⟩ := hm ds rfl
    have hsh : (ds ++ ['M']) ++ renderComp ss 'S' = ds ++ 'M' :: renderComp ss 'S' := by
      simp
    simpa [renderComp, compVal, hsh] using
      @groupNum_hit 'm' _ _ (renderComp ss 'S') hne hdig (by decide) (by decide)

theorem groupNum_RM_skip {L : Char} {mm ss : Option (List Char)} (hm : goodComp mm)
    (hs : goodComp ss) (hLm : L ≠ 'm') (hLs : L ≠ 's') :
    groupNum L (renderComp mm 'M' ++ renderComp ss 'S') =
      (0, renderComp mm 'M' ++ renderComp ss 'S') := by
  cases mm with
  | none => simpa [renderComp] using groupNum_RS_skip hs hLs
  | some ds =>
    obtain ⟨hne, hdig⟩ := hm ds rfl
    have hsh : (ds ++ ['M']) ++ renderComp ss 'S' = ds ++ 'M' :: renderComp ss 'S' := by
      simp
    simpa [renderComp, hsh] using
      @groupNum_wrongLetter L _ _ (renderComp ss 'S') hne hdig (by decide)
        (by rw [show lowerC 'M' = 'm' from by decide]; exact fun hq => hLm hq.symm)

theorem groupNum_RH_hit {hh mm ss : Option (List Char)} (hh' : goodComp hh)
    (hm : goodComp mm) (hs : goodComp ss) :
    groupNum 'h' (renderComp hh 'H' ++ renderComp mm 'M' ++ renderComp ss 'S') =
      (compVal hh, renderComp mm 'M' ++ renderComp ss 'S') := by
  cases hh with
  | none => simpa [renderComp, compVal] using groupNum_RM_skip hm hs (by decide) (by decide)
  | some ds =>
    obtain ⟨hne, hdig⟩ := hh' ds rfl
    have hsh : (ds ++ ['H']) ++ renderComp mm 'M' ++ renderComp ss 'S' =
        ds ++ 'H' :: (renderComp mm 'M' ++ renderComp ss 'S') := by simp
    simpa [renderComp, compVal, hsh] using
      @groupNum_hit 'h' _ _ (renderComp mm 'M' ++ renderComp ss 'S')
        hne hdig (by decide) (by decide)

theorem groupNum_RH_skip {L : Char} {hh mm ss : Option (List Char)} (hh' : goodComp hh)
    (hm : goodComp mm) (hs : goodComp ss) (hLh : L ≠ 'h') (hLm : L ≠ 'm')
    (hLs : L ≠ 's') :
    groupNum L (renderComp hh 'H' ++ renderComp mm 'M' ++ renderComp ss 'S') =
      (0, renderComp hh 'H' ++ renderComp mm 'M' ++ renderComp ss 'S') := by
  cases hh with
  | none => simpa [renderComp] using groupNum_RM_skip hm hs hLm hLs
  | some ds =>
    obtain ⟨hne, hdig⟩ := hh' ds rfl
    have hsh : (ds ++ ['H']) ++ renderComp mm 'M' ++ renderComp ss 'S' =
        ds ++ 'H' :: (renderComp mm 'M' ++ renderComp ss 'S') := by simp
    simpa [renderComp, hsh] using
      @groupNum_wrongLetter L _ _ (renderComp mm 'M' ++ renderComp ss 'S')
        hne hdig (by decide)
        (by rw [show lowerC 'H' = 'h' from by decide]; exact fun hq => hLh hq.symm)

theorem tSkip_RH {hh mm ss : Option (List Char)} (hh' : goodComp hh)
    (hm : goodComp mm) (hs : goodComp ss) :
    tSkip (renderComp hh 'H' ++ renderComp mm 'M' ++ renderComp ss 'S') =
      renderComp hh 'H' ++ renderComp mm 'M' ++ renderComp ss 'S' := by
  have headDig : ∀ (x : Option (List Char)) (L : Char), goodComp x →
      ∀ tail, (renderComp x L ++ tail = tail) ∨
        (∃ d r, renderComp x L ++ tail = d :: r ∧ isDig d = true) := by
    intro x L hx tail
    cases x with
    | none => exact Or.inl (by simp [renderComp])
    | some ds =>
      obtain ⟨hne, hdig⟩ := hx ds rfl
      cases ds with
      | nil => exact absurd rfl hne
      | cons d ds' =>
        exact Or.inr ⟨d, ds' ++ L :: tail, by simp [renderComp],
          hdig d (List.mem_cons_self d ds')⟩
  rw [List.append_assoc]
  rcases headDig hh 'H' hh' (renderComp mm 'M' ++ renderComp ss 'S') with h1 | ⟨d, r, hEq, hd⟩
  · rw [h1]
    rcases headDig mm 'M' hm (renderComp ss 'S') with h2 | ⟨d, r, hEq, hd⟩
    · rw [h2]
      rcases headDig ss 'S' hs [] with h3 | ⟨d, r, hEq, hd⟩
      · have h3' : renderComp ss 'S' = [] := by simpa using h3
        rw [h3']
        rfl
      · have hEq' : renderComp ss 'S' = d :: r := by simpa using hEq
        rw [hEq']
        simp [tSkip, @lowerC_digit_ne _ 't' hd (by decide)]
    · rw [hEq]
      simp [tSkip, @lowerC_digit_ne _ 't' hd (by decide)]
  · rw [hEq]
    simp [tSkip, @lowerC_digit_ne _ 't' hd (by decide)]

theorem isoMatch_render {dd hh mm ss : Option (List Char)} {t : Bool}
    (h1 : goodComp dd) (h2 : goodComp hh) (h3 : goodComp mm) (h4 : goodComp ss) :
    isoMatchL (renderISO dd hh mm ss t) =
      some (compVal dd, compVal hh, compVal mm, compVal ss) := by
  have hD : groupNum 'd' (renderComp dd 'D' ++ ((if t then ['T'] else []) ++
      (renderComp hh 'H' ++ renderComp mm 'M' ++ renderComp ss 'S'))) =
      (compVal dd, (if t then ['T'] else []) ++
        (renderComp hh 'H' ++ renderComp mm 'M' ++ renderComp ss 'S')) := by
    cases dd with
    | none =>
      simp only [renderComp, List.nil_append, compVal]
      cases t with
      | true =>
        simpa using @groupNum_nondigit 'd' 'T'
          (renderComp hh 'H' ++ renderComp mm 'M' ++ renderComp ss 'S')
          (by decide)
      | false =>
        simpa using groupNum_RH_skip h2 h3 h4 (by decide) (by decide) (by decide)
    | some ds =>
      obtain ⟨hne, hdig⟩ := h1 ds rfl
      have hsh : renderComp (some ds) 'D' ++ ((if t then ['T'] else []) ++
          (renderComp hh 'H' ++ renderComp mm 'M' ++ renderComp ss 'S')) =
          ds ++ 'D' :: ((if t then ['T'] else []) ++
            (renderComp hh 'H' ++ renderComp mm 'M' ++ renderComp ss 'S')) := by
        simp [renderComp]
      rw [hsh]
      exact @groupNum_hit 'd' _ 'D' _ hne hdig (by decide) (by decide)
  have hT : tSkip ((if t then ['T'] else []) ++
      (renderComp hh 'H' ++ renderComp mm 'M' ++ renderComp ss 'S')) =
      renderComp hh 'H' ++ renderComp mm 'M' ++ renderComp ss 'S' := by
    cases t with
    | true => simp [tSkip, show lowerC 'T' = 't' from by decide]
    | false => simpa using tSkip_RH h2 h3 h4
  show isoMatchL ('P' :: (renderComp dd 'D' ++ ((if t then ['T'] else []) ++
      (renderComp hh 'H' ++ renderComp mm 'M' ++ renderComp ss 'S')))) = _
  rw [isoMatchL]
  rw [if_pos (by decide)]
  simp only [hD, hT, groupNum_RH_hit h2 h3 h4, groupNum_RM_hit h3 h4,
    groupNum_RS_hit h4]

theorem renderComp_no_ws {x : Option (List Char)} {L : Char} (hx : goodComp x)
    (hL : isPySpace L = false) : ∀ c ∈ renderComp x L, isPySpace c = false := by
  intro c hc
  cases x with
  | none => simp [renderComp] at hc
  | some ds =>
    obtain ⟨-, hdig⟩ := hx ds rfl
    simp only [renderComp, List.mem_append, List.mem_singleton] at hc
    rcases hc with h | h
    · exact isPySpace_digit (hdig c h)
    · subst h; exact hL

theorem renderISO_no_ws {dd hh mm ss : Option (List Char)} {t : Bool}
    (g1 : goodComp dd) (g2 : goodComp hh) (g3 : goodComp mm) (g4 : goodComp ss) :
    ∀ c ∈ renderISO dd hh mm ss t, isPySpace c = false := by
  intro c hc
  simp only [renderISO, List.mem_cons, List.mem_append] at hc
  rcases hc with rfl | hc
  · decide
  rcases hc with hc | hc
  · exact renderComp_no_ws g1 (by decide) c hc
  rcases hc with hc | hc
  · cases t with
    | true =>
      simp only [if_true, List.mem_singleton] at hc
      subst hc; decide
    | false => simp at hc
  rcases hc with hc | hc
  · rcases hc with hc | hc
    · exact renderComp_no_ws g2 (by decide) c hc
    · exact renderComp_no_ws g3 (by decide) c hc
  · exact renderComp_no_ws g4 (by decide) c hc

theorem validGate_inv {x d : Data} (h : validGate x = some d) : d = x := by
  unfold validGate at h
  split at h
  · injection h with h'
    exact h'.symm
  · cases h

theorem validGate_valid {x d : Data} (h : validGate x = some d) : validB d = true := by
  have hd := validGate_inv h
  subst hd
  unfold validGate at h
  split at h
  · assumption
  · cases h

theorem netlocParse_scheme {bh : List Char → Bool} {scheme : String}
    {rest : List Char} {parts : UrlParts}
    (h : netlocParse bh scheme rest = .ok parts) : parts.scheme = scheme := by
  unfold netlocParse at h
  split at h
  · split at h
    · cases h
    · split at h
      · split at h
        · injection h with h'
          rw [← h']
        · cases h
      · injection h with h'
        rw [← h']
  · injection h with h'
    rw [← h']

theorem schemeSplit_https (url : String) :
    schemeSplit ("https://" ++ url).data = ("https", '/' :: '/' :: url.data) :=
  rfl

theorem pyUrlparse_https_scheme (bh : List Char → Bool) (url : String)
    {parts : UrlParts} (h : pyUrlparse bh ("https://" ++ url) = .ok parts) :
    parts.scheme = "https" := by
  unfold pyUrlparse at h
  rw [schemeSplit_https] at h
  exact netlocParse_scheme h

/-! # Claim theorems -/

/-- C2: parse_ingredient satisfies the four round-trip examples:
"½ taza de azúcar" yields quantity 0.5, unit "taza", name "azúcar";
"2 dientes de ajo picados" yields quantity 2, unit "diente", name
"ajo picados"; "Un pellizco de sal" yields quantity 1, unit "pellizco",
name "sal"; "Sal y pimienta al gusto" yields quantity null, unit null,
name "Sal y pimienta", notes "al gusto". -/
theorem C2_ingredient_roundtrips :
    parse_ingredient "½ taza de azúcar" =
      ⟨some (1/2), some "taza", "azúcar", ""⟩ ∧
    parse_ingredient "2 dientes de ajo picados" =
      ⟨some 2, some "diente", "ajo picados", ""⟩ ∧
    parse_ingredient "Un pellizco de sal" =
      ⟨some 1, some "pellizco", "sal", ""⟩ ∧
    parse_ingredient "Sal y pimienta al gusto" =
      ⟨Option.none, Option.none, "Sal y pimienta", "al gusto"⟩ :=
  ⟨rfl, rfl, rfl, rfl⟩

/-- C3 counterexample: the claim asserts that a computed total of zero is
null, but parse_iso_duration("0") takes the bare-integer fallback (the
string does not start with P) and returns 0, not null. -/
theorem C3_zero_counterexample :
    parse_iso_duration "0" = some 0 ∧ parse_iso_duration "0" ≠ Option.none := by
  constructor <;> decide

/-- C3 (amended): for every ISO-style duration P[nD]T[nH][nM][nS] (all
components and the T optional, digits arbitrary), the result is
days*1440 + hours*60 + minutes + (1 if seconds>=30 else 0), with null for a
zero total; a string whose stripped form does not start with P/p is instead
parsed as a Python int of minutes and returned unchanged — including 0 and
negative values, which bypass the null-for-zero rule; null for empty input
and unparseable strings; the five examples hold. -/
theorem C3_duration_amended :
    (∀ (dd hh mm ss : Option (List Char)) (t : Bool),
      goodComp dd → goodComp hh → goodComp mm → goodComp ss →
      parse_iso_duration (String.mk (renderISO dd hh mm ss t)) =
        (let total : Int := compVal dd * 1440 + compVal hh * 60 + compVal mm +
          (if 30 ≤ compVal ss then 1 else 0)
         if 0 < total then some total else Option.none)) ∧
    (∀ s : String, s ≠ "" →
      (∀ c r, pyStripL s.data = c :: r → lowerC c ≠ 'p') →
      parse_iso_duration s = pyInt s) ∧
    parse_iso_duration "" = Option.none ∧
    parse_iso_duration "PT1H30M" = some 90 ∧
    parse_iso_duration "PT45S" = some 1 ∧
    parse_iso_duration "PT29S" = Option.none ∧
    parse_iso_duration "90" = some 90 := by
  refine ⟨?_, ?_, by decide, by decide, by decide, by decide, by decide⟩
  · intro dd hh mm ss t g1 g2 g3 g4
    unfold parse_iso_duration
    rw [if_neg]
    · have hdata : (String.mk (renderISO dd hh mm ss t)).data =
          renderISO dd hh mm ss t := rfl
      rw [hdata, pyStripL_eq_self (renderISO_no_ws g1 g2 g3 g4),
        isoMatch_render g1 g2 g3 g4]
    · intro h
      have h2 := congrArg String.data h
      simp [renderISO] at h2
  · intro s hs hp
    unfold parse_iso_duration
    rw [if_neg hs]
    cases hstrip : pyStripL s.data with
    | nil => rw [show isoMatchL [] = Option.none from rfl]
    | cons c r =>
      rw [show isoMatchL (c :: r) = if lowerC c = 'p' then _ else Option.none from rfl]
      rw [if_neg (hp c r hstrip)]

/-- C3 witness: the amended theorem applied to the concrete duration P3D
(3 days = 4320 minutes). -/
theorem C3_duration_amended_witness :
    parse_iso_duration "P3D" = some 4320 := by
  have h := C3_duration_amended.1 (some ['3']) Option.none Option.none Option.none false
    (by intro ds hds; cases hds; exact ⟨by simp, by decide⟩)
    (by intro ds hds; cases hds)
    (by intro ds hds; cases hds)
    (by intro ds hds; cases hds)
  have hstr : String.mk (renderISO (some ['3']) Option.none Option.none Option.none false) =
      "P3D" := rfl
  rw [hstr] at h
  rw [h]
  decide

/-- C8 counterexample: the claim says a numeric input is returned
unchanged, but the code only returns int instances unchanged; the float
2.5 goes through the stringify-and-scan path and yields 2 ≠ 2.5. -/
theorem C8_float_counterexample :
    extract_servings (.float q52) = some 2 ∧ q52 ≠ 2 := by
  constructor
  · decide
  · show Rat.mk' 5 2 (by decide) (by decide) ≠ 2
    rw [Rat.mk'_eq_divInt, Rat.divInt_eq_div]
    norm_num

/-- C8 (amended): an int input (only) is returned unchanged; a sequence is
replaced by its first element — which is then stringified and scanned for
its first digit run like any other non-int value, an empty sequence scanning
str(None); otherwise the value is stringified and the first digit run
returned, null when there is none.  The three examples of the claim hold. -/
theorem C8_servings_amended :
    (∀ n : Int, extract_servings (.int n) = some n) ∧
    extract_servings (.list []) = Option.none ∧
    (∀ (v : PyVal) (vs : List PyVal),
      extract_servings (.list (v :: vs)) =
        (firstDigitRun (pyStrip (pyStr v)).data).map (fun n => (n : Int))) ∧
    (∀ s : String, extract_servings (.str s) =
        (firstDigitRun (pyStrip s).data).map (fun n => (n : Int))) ∧
    extract_servings PyVal.none = Option.none ∧
    extract_servings (.str "4 servings") = some 4 ∧
    extract_servings (.list [.int 6, .int 8]) = some 6 := by
  refine ⟨fun n => rfl, by decide, fun v vs => rfl, fun s => rfl, rfl,
    by decide, by decide⟩

/-- C9 counterexample: the claim says every non-string input yields the
empty string, but a truthy non-string (the int 5) is stringified and
cleaned, yielding "5". -/
theorem C9_nonstring_counterexample :
    clean_text (.int 5) = "5" ∧ clean_text (.int 5) ≠ "" := by
  constructor <;> decide

/-- C9 (amended): _clean_text never raises on any modelled value (it is a
total function of the value), every FALSY input — None, empty string, 0,
0.0, False, empty list or dict — yields the empty string, and a truthy
non-string input is stringified and cleaned like a string rather than
mapped to the empty string. -/
theorem C9_clean_text_amended :
    (∀ v : PyVal, pyFalsy v = true → clean_text v = "") ∧
    (∀ v : PyVal, pyFalsy v = false → clean_text v = cleanStr (pyStr v)) := by
  constructor <;> (intro v h; simp [clean_text, h])

/-- C9 witness: the amended theorem applied to None and to the int 7. -/
theorem C9_clean_text_amended_witness :
    clean_text PyVal.none = "" ∧ clean_text (.int 7) = cleanStr (pyStr (.int 7)) :=
  ⟨C9_clean_text_amended.1 PyVal.none rfl, C9_clean_text_amended.2 (.int 7) rfl⟩

/-- C4 counterexample: the claim says a non-null prep_time with a null
cook_time blocks the backfill, but the code tests Python truthiness: with
prep_time = 0 (present and non-null) the backfill still fires and cook_time
becomes total_time instead of staying null. -/
theorem C4_backfill_counterexample :
    scrape_with_library (some libZeroPrep) = some dataZeroPrep ∧
    dataZeroPrep.prep_time = some 0 ∧
    (scrape_with_library (some libZeroPrep)).map Data.cook_time ≠ some Option.none := by
  refine ⟨by decide, rfl, by decide⟩

/-- C4 (amended): identically in Tiers 1-3 (library, JSON-LD and microdata),
cook_time is set to total_time exactly when total_time is truthy (present
and non-zero) and prep_time and cook_time are each falsy (absent or zero);
in particular a zero prep_time does not block the backfill; prep_time and
total_time themselves are never modified by the rule. -/
theorem C4_backfill_amended :
    (∀ (sc : LibScraper) (p c t : Option Int) (d : Data),
      sc.prep_time = .ok p → sc.cook_time = .ok c → sc.total_time = .ok t →
      scrape_with_library (some sc) = some d →
      d.prep_time = p ∧ d.total_time = t ∧
        d.cook_time = (if truthyI t && !truthyI p && !truthyI c then t else c)) ∧
    (∀ (uj : String → String → String) (url : String)
      (recipe : List (String × PyVal)) (p c t : Option Int) (d : Data),
      pid_val (dictGetD recipe "prepTime" (.str "")) = .ok p →
      pid_val (dictGetD recipe "cookTime" (.str "")) = .ok c →
      pid_val (dictGetD recipe "totalTime" (.str "")) = .ok t →
      jsonldCandidate uj url recipe = .ok d →
      d.prep_time = p ∧ d.total_time = t ∧
        d.cook_time = (if truthyI t && !truthyI p && !truthyI c then t else c)) ∧
    (∀ (uj : String → String → String) (url : String) (sc : MicroScope)
      (p c t : Option Int) (d : Data),
      microTime sc.prepEl = p → microTime sc.cookEl = c →
      microTime sc.totalEl = t →
      scrape_microdata uj url (some sc) = some d →
      d.prep_time = p ∧ d.total_time = t ∧
        d.cook_time = (if truthyI t && !truthyI p && !truthyI c then t else c)) := by
  refine ⟨?_, ?_, ?_⟩
  · intro sc p c t d hp hc ht hres
    cases htitle : sc.title with
    | error e =>
      rw [scrape_with_library, htitle] at hres
      exact absurd hres (by simp)
    | ok tv =>
      rw [scrape_with_library, htitle] at hres
      simp only [hp, hc, ht] at hres
      have hd := validGate_inv hres
      subst hd
      exact ⟨rfl, rfl, rfl⟩
  · intro uj url recipe p c t d hp hc ht hres
    unfold jsonldCandidate at hres
    rw [hp, hc, ht] at hres
    simp only [bind, Except.bind] at hres
    rcases hin : normalize_ingredients (dictGetD recipe "recipeIngredient" (.list [])) with e | ing
    · rw [hin] at hres
      exact absurd hres (by simp)
    · rw [hin] at hres
      rcases hst : normalize_steps (dictGetD recipe "recipeInstructions" (.list [])) with e | st
      · rw [hst] at hres
        exact absurd hres (by simp)
      · rw [hst] at hres
        simp only [pure, Except.pure] at hres
        injection hres with h
        subst h
        exact ⟨rfl, rfl, rfl⟩
  · intro uj url sc p c t d hp hc ht hres
    simp only [scrape_microdata] at hres
    rw [hp, hc, ht] at hres
    have hd := validGate_inv hres
    subst hd
    exact ⟨rfl, rfl, rfl⟩

/-- C4 witness: the amended theorem applied to the concrete Tier-1 scraper
with prep_time 0 / total_time 30, to the concrete JSON-LD recipe with only
a totalTime, and to the concrete microdata scope with only a totalTime
element. -/
theorem C4_backfill_amended_witness :
    (dataZeroPrep.prep_time = some 0 ∧ dataZeroPrep.total_time = some 30 ∧
      dataZeroPrep.cook_time =
        (if truthyI (some 30) && !truthyI (some 0) && !truthyI Option.none
         then some 30 else Option.none)) ∧
    (dataTotalOnly.prep_time = Option.none ∧ dataTotalOnly.total_time = some 30 ∧
      dataTotalOnly.cook_time =
        (if truthyI (some 30) && !truthyI Option.none && !truthyI Option.none
         then some 30 else Option.none)) ∧
    (dataTotalOnly.prep_time = Option.none ∧ dataTotalOnly.total_time = some 30 ∧
      dataTotalOnly.cook_time =
        (if truthyI (some 30) && !truthyI Option.none && !truthyI Option.none
         then some 30 else Option.none)) :=
  ⟨C4_backfill_amended.1 libZeroPrep (some 0) Option.none (some 30) dataZeroPrep
      rfl rfl rfl (by decide),
   C4_backfill_amended.2.1 ujId "https://x" recipeTotalOnly Option.none Option.none
      (some 30) dataTotalOnly rfl rfl rfl rfl,
   C4_backfill_amended.2.2 ujId "https://x" microTotalOnly Option.none Option.none
      (some 30) dataTotalOnly rfl rfl rfl (by decide)⟩

theorem gateBody_pass (uj : String → String → String) (url : String)
    (parsed : UrlParts) (fetch : FetchOutcome)
    (hsch : parsed.scheme = "http" ∨ parsed.scheme = "https")
    (hnl : parsed.netloc ≠ "") :
    gateBody uj url parsed fetch = .ok (match fetch with
      | .timeout => .failure "Timeout: la página tardó demasiado en responder"
      | .connError => .failure "No se pudo conectar a la página"
      | .httpError c => .failure ("Error HTTP: " ++ toString c)
      | .otherExc m => .failure ("Error al descargar la página: " ++ m)
      | .ok page => tiersFold uj url page) := by
  unfold gateBody
  rw [if_neg (not_not_intro hsch), if_neg hnl]

theorem gateBody_not_success (uj : String → String → String) (url : String)
    (parsed : UrlParts) (fetch : FetchOutcome) (d : Data) (m : String)
    (hg : ((parsed.scheme = "http" || parsed.scheme = "https") &&
      parsed.netloc ≠ "") = false) :
    gateBody uj url parsed fetch ≠ .ok (.success d m) := by
  unfold gateBody
  by_cases hs : ¬ (parsed.scheme = "http" ∨ parsed.scheme = "https")
  · rw [if_pos hs]
    intro hc
    injection hc with hc'
    cases hc'
  · rw [if_neg hs]
    by_cases hn : parsed.netloc = ""
    · rw [if_pos hn]
      intro hc
      injection hc with hc'
      cases hc'
    · exfalso
      apply absurd hg
      simp only [Bool.and_eq_true, Bool.or_eq_true, decide_eq_true_eq,
        Bool.not_eq_false]
      exact ⟨not_not.mp hs, hn⟩

theorem scrape_recipe_ok_gate (bh : List Char → Bool)
    (uj : String → String → String) (url : String)
    (fetch : FetchOutcome) (hg : urlGate bh url = true) :
    scrape_recipe bh uj url fetch = .ok (match fetch with
      | .timeout => .failure "Timeout: la página tardó demasiado en responder"
      | .connError => .failure "No se pudo conectar a la página"
      | .httpError c => .failure ("Error HTTP: " ++ toString c)
      | .otherExc m => .failure ("Error al descargar la página: " ++ m)
      | .ok page => tiersFold uj (effectiveUrl bh url) page) := by
  unfold urlGate at hg
  unfold scrape_recipe effectiveUrl
  rcases hp : pyUrlparse bh url with e | parsed0
  · simp only [hp] at hg
    exact absurd hg (by decide)
  · simp only [hp] at hg ⊢
    by_cases h0 : parsed0.scheme = ""
    · simp only [if_pos h0] at hg ⊢
      rcases hp2 : pyUrlparse bh ("https://" ++ url) with e | parsed
      · simp only [hp2] at hg
        exact absurd hg (by decide)
      · simp only [hp2] at hg ⊢
        simp only [Bool.and_eq_true, Bool.or_eq_true, decide_eq_true_eq] at hg
        obtain ⟨hsch, hnl⟩ := hg
        exact gateBody_pass uj ("https://" ++ url) parsed fetch hsch hnl
    · simp only [if_neg h0] at hg ⊢
      simp only [Bool.and_eq_true, Bool.or_eq_true, decide_eq_true_eq] at hg
      obtain ⟨hsch, hnl⟩ := hg
      exact gateBody_pass uj url parsed0 fetch hsch hnl

theorem scrape_recipe_not_success (bh : List Char → Bool)
    (uj : String → String → String) (url : String)
    (fetch : FetchOutcome) (d : Data) (m : String) (hg : urlGate bh url = false) :
    scrape_recipe bh uj url fetch ≠ .ok (.success d m) := by
  unfold urlGate at hg
  unfold scrape_recipe
  rcases hp : pyUrlparse bh url with e | parsed0
  · simp only [hp]
    intro hc
    cases hc
  · simp only [hp] at hg ⊢
    by_cases h0 : parsed0.scheme = ""
    · rw [if_pos h0] at hg ⊢
      rcases hp2 : pyUrlparse bh ("https://" ++ url) with e | parsed
      · simp only [hp2]
        intro hc
        cases hc
      · simp only [hp2] at hg ⊢
        exact gateBody_not_success uj ("https://" ++ url) parsed fetch d m hg
    · rw [if_neg h0] at hg ⊢
      exact gateBody_not_success uj url parsed0 fetch d m hg

/-- C5 counterexample: the claim says every input URL yields a labeled
Failure rather than raising, but urlparse itself (scrapers.py 490, outside
the try) raises ValueError("Invalid IPv6 URL") on "http://[", before any
fetch happens. -/
theorem C5_raise_counterexample :
    scrape_recipe bhAny ujId "http://[" .timeout = .error () ∧
    (∀ fetch, scrape_recipe bhAny ujId "http://[" fetch = .error ()) :=
  ⟨rfl, fun _ => rfl⟩

/-- C5 (amended): the two urlparse calls sit outside the try and their
ValueError (a bracket-mismatched or invalid bracketed host in the netloc)
propagates out of scrape_recipe unhandled; for every URL that parses
without raising, the failures are labeled: a non-HTTP scheme yields the
invalid-URL reason, a missing host (after the https default) the
missing-domain reason, and a timeout / connection failure / non-2xx status
/ other download error each their own reason, the HTTP one carrying the
status code. -/
theorem C5_fetch_failures_amended :
    (∀ (bh : List Char → Bool) (uj : String → String → String) (url : String)
      (fetch : FetchOutcome),
      pyUrlparse bh url = .error () →
      scrape_recipe bh uj url fetch = .error ()) ∧
    (∀ (bh : List Char → Bool) (uj : String → String → String) (url : String)
      (fetch : FetchOutcome) (p0 : UrlParts),
      pyUrlparse bh url = .ok p0 → p0.scheme = "" →
      pyUrlparse bh ("https://" ++ url) = .error () →
      scrape_recipe bh uj url fetch = .error ()) ∧
    (∀ (bh : List Char → Bool) (uj : String → String → String) (url : String)
      (fetch : FetchOutcome) (p0 : UrlParts),
      pyUrlparse bh url = .ok p0 →
      p0.scheme ≠ "" → p0.scheme ≠ "http" → p0.scheme ≠ "https" →
      scrape_recipe bh uj url fetch =
        .ok (.failure "URL inválida: solo se soporta HTTP/HTTPS")) ∧
    (∀ (bh : List Char → Bool) (uj : String → String → String) (url : String)
      (fetch : FetchOutcome) (p0 p1 : UrlParts),
      pyUrlparse bh url = .ok p0 → p0.scheme = "" →
      pyUrlparse bh ("https://" ++ url) = .ok p1 → p1.netloc = "" →
      scrape_recipe bh uj url fetch =
        .ok (.failure "URL inválida: falta el dominio")) ∧
    (∀ (bh : List Char → Bool) (uj : String → String → String) (url : String)
      (fetch : FetchOutcome) (p0 : UrlParts),
      pyUrlparse bh url = .ok p0 →
      (p0.scheme = "http" ∨ p0.scheme = "https") → p0.netloc = "" →
      scrape_recipe bh uj url fetch =
        .ok (.failure "URL inválida: falta el dominio")) ∧
    (∀ (bh : List Char → Bool) (uj : String → String → String) (url : String),
      urlGate bh url = true →
      scrape_recipe bh uj url .timeout =
        .ok (.failure "Timeout: la página tardó demasiado en responder")) ∧
    (∀ (bh : List Char → Bool) (uj : String → String → String) (url : String),
      urlGate bh url = true →
      scrape_recipe bh uj url .connError =
        .ok (.failure "No se pudo conectar a la página")) ∧
    (∀ (bh : List Char → Bool) (uj : String → String → String) (url : String)
      (code : Nat), urlGate bh url = true →
      scrape_recipe bh uj url (.httpError code) =
        .ok (.failure ("Error HTTP: " ++ toString code))) ∧
    (∀ (bh : List Char → Bool) (uj : String → String → String) (url : String)
      (msg : String), urlGate bh url = true →
      scrape_recipe bh uj url (.otherExc msg) =
        .ok (.failure ("Error al descargar la página: " ++ msg))) := by
  refine ⟨?_, ?_, ?_, ?_, ?_, ?_, ?_, ?_, ?_⟩
  · intro bh uj url fetch hp
    unfold scrape_recipe
    simp only [hp]
  · intro bh uj url fetch p0 hp h0 hp2
    unfold scrape_recipe
    simp only [hp, hp2]
    rw [if_pos h0]
  · intro bh uj url fetch p0 hp h0 h1 h2
    unfold scrape_recipe
    simp only [hp]
    rw [if_neg h0]
    unfold gateBody
    rw [if_pos]
    rintro (hq | hq)
    · exact h1 hq
    · exact h2 hq
  · intro bh uj url fetch p0 p1 hp h0 hp2 hn
    unfold scrape_recipe
    simp only [hp, hp2]
    rw [if_pos h0]
    unfold gateBody
    rw [if_neg (not_not_intro (Or.inr (pyUrlparse_https_scheme bh url hp2))),
      if_pos hn]
  · intro bh uj url fetch p0 hp hor hn
    have h0 : ¬ p0.scheme = "" := by
      rcases hor with hq | hq <;> simp [hq]
    unfold scrape_recipe
    simp only [hp]
    rw [if_neg h0]
    unfold gateBody
    rw [if_neg (not_not_intro hor), if_pos hn]
  · intro bh uj url hg
    rw [scrape_recipe_ok_gate bh uj url .timeout hg]
  · intro bh uj url hg
    rw [scrape_recipe_ok_gate bh uj url .connError hg]
  · intro bh uj url code hg
    rw [scrape_recipe_ok_gate bh uj url (.httpError code) hg]
  · intro bh uj url msg hg
    rw [scrape_recipe_ok_gate bh uj url (.otherExc msg) hg]

/-- C5 witness: the amended theorem applied to concrete URLs — the raising
"http://[" and bare "[", an FTP URL, a bare scheme with no host, and a
well-formed host with each fetch failure. -/
theorem C5_fetch_failures_amended_witness :
    scrape_recipe bhAny ujId "http://[" .connError = .error () ∧
    scrape_recipe bhAny ujId "[" .timeout = .error () ∧
    scrape_recipe bhAny ujId "ftp://a.b" .timeout =
      .ok (.failure "URL inválida: solo se soporta HTTP/HTTPS") ∧
    scrape_recipe bhAny ujId "" .timeout =
      .ok (.failure "URL inválida: falta el dominio") ∧
    scrape_recipe bhAny ujId "https://" .timeout =
      .ok (.failure "URL inválida: falta el dominio") ∧
    scrape_recipe bhAny ujId "https://example.com" .timeout =
      .ok (.failure "Timeout: la página tardó demasiado en responder") ∧
    scrape_recipe bhAny ujId "https://example.com" .connError =
      .ok (.failure "No se pudo conectar a la página") ∧
    scrape_recipe bhAny ujId "https://example.com" (.httpError 404) =
      .ok (.failure ("Error HTTP: " ++ toString 404)) ∧
    scrape_recipe bhAny ujId "https://example.com" (.otherExc "boom") =
      .ok (.failure ("Error al descargar la página: " ++ "boom")) :=
  ⟨(C5_fetch_failures_amended.1) bhAny ujId "http://[" .connError rfl,
   (C5_fetch_failures_amended.2.1) bhAny ujId "[" .timeout ⟨"", ""⟩ rfl rfl rfl,
   (C5_fetch_failures_amended.2.2.1) bhAny ujId "ftp://a.b" .timeout ⟨"ftp", "a.b"⟩
     rfl (by decide) (by decide) (by decide),
   (C5_fetch_failures_amended.2.2.2.1) bhAny ujId "" .timeout ⟨"", ""⟩
     ⟨"https", ""⟩ rfl rfl rfl rfl,
   (C5_fetch_failures_amended.2.2.2.2.1) bhAny ujId "https://" .timeout
     ⟨"https", ""⟩ rfl (Or.inr rfl) rfl,
   (C5_fetch_failures_amended.2.2.2.2.2.1) bhAny ujId "https://example.com" rfl,
   (C5_fetch_failures_amended.2.2.2.2.2.2.1) bhAny ujId "https://example.com" rfl,
   (C5_fetch_failures_amended.2.2.2.2.2.2.2.1) bhAny ujId "https://example.com"
     404 rfl,
   (C5_fetch_failures_amended.2.2.2.2.2.2.2.2) bhAny ujId "https://example.com"
     "boom" rfl⟩

/-- C6 counterexample: a page on which the Tier-1 library succeeds is
tagged "recipe-scrapers", a tag outside the claimed set
{"library", "json-ld", "microdata", "heuristic"}. -/
theorem C6_method_tag_counterexample :
    scrape_recipe bhAny ujId "https://example.com" (.ok pageLib) =
      .ok (.success dataLib "recipe-scrapers") ∧
    ("recipe-scrapers" : String) ∉
      (["library", "json-ld", "microdata", "heuristic"] : List String) := by
  constructor
  · rfl
  · decide

/-- C6 (amended): every Success outcome of scrape_recipe carries a method
tag that is one of exactly "recipe-scrapers" (the Tier-1 library),
"json-ld", "microdata", or "heuristic". -/
theorem C6_method_tags_amended :
    ∀ (bh : List Char → Bool) (uj : String → String → String) (url : String)
      (fetch : FetchOutcome) (d : Data) (m : String),
      scrape_recipe bh uj url fetch = .ok (.success d m) →
      m ∈ (["recipe-scrapers", "json-ld", "microdata", "heuristic"] : List String) := by
  intro bh uj url fetch d m h
  by_cases hg : urlGate bh url = true
  · rw [scrape_recipe_ok_gate bh uj url fetch hg] at h
    cases fetch with
    | timeout => simp at h
    | connError => simp at h
    | httpError c => simp at h
    | otherExc msg => simp at h
    | ok page =>
      injection h with h'
      replace h : tiersFold uj (effectiveUrl bh url) page =
        ScrapeOutcome.success d m := h'
      unfold tiersFold at h
      rcases h1 : scrape_with_library page.lib with _ | d1
      · simp only [h1] at h
        rcases h2 : scrape_jsonld uj (effectiveUrl bh url) page.scripts with _ | d2
        · simp only [h2] at h
          rcases h3 : scrape_microdata uj (effectiveUrl bh url) page.micro with _ | d3
          · simp only [h3] at h
            rcases h4 : scrape_heuristic uj (effectiveUrl bh url) page.heur with _ | d4
            · simp only [h4] at h
              cases h
            · simp only [h4, ScrapeOutcome.success.injEq] at h
              obtain ⟨ha, hb⟩ := h
              subst hb
              decide
          · simp only [h3, ScrapeOutcome.success.injEq] at h
            obtain ⟨ha, hb⟩ := h
            subst hb
            decide
        · simp only [h2, ScrapeOutcome.success.injEq] at h
          obtain ⟨ha, hb⟩ := h
          subst hb
          decide
      · simp only [h1, ScrapeOutcome.success.injEq] at h
        obtain ⟨ha, hb⟩ := h
        subst hb
        decide
  · exact absurd h (scrape_recipe_not_success bh uj url fetch d m (by simpa using hg))

/-- C6 witness: the amended theorem applied to the page on which Tier 1
succeeds. -/
theorem C6_method_tags_amended_witness :
    ("recipe-scrapers" : String) ∈
      (["recipe-scrapers", "json-ld", "microdata", "heuristic"] : List String) :=
  C6_method_tags_amended bhAny ujId "https://example.com" (.ok pageLib) dataLib
    "recipe-scrapers" rfl

theorem scrape_with_library_valid {lib : Option LibScraper} {d : Data}
    (h : scrape_with_library lib = some d) : validB d = true := by
  cases lib with
  | none => cases h
  | some sc =>
    cases htitle : sc.title with
    | error e =>
      rw [scrape_with_library, htitle] at h
      cases h
    | ok tv =>
      rw [scrape_with_library, htitle] at h
      exact validGate_valid h

theorem scrape_microdata_valid {uj : String → String → String} {url : String}
    {md : Option MicroScope} {d : Data}
    (h : scrape_microdata uj url md = some d) : validB d = true := by
  cases md with
  | none => cases h
  | some sc => exact validGate_valid h

theorem scrape_heuristic_valid {uj : String → String → String} {url : String}
    {hp : HeurPage} {d : Data}
    (h : scrape_heuristic uj url hp = some d) : validB d = true :=
  validGate_valid h

theorem jsonldRecLoop_valid {uj : String → String → String} {url : String}
    {rs : List (List (String × PyVal))} {d : Data}
    (h : jsonldRecLoop uj url rs = .ok (some d)) : validB d = true := by
  induction rs with
  | nil => exact absurd h (by simp [jsonldRecLoop])
  | cons r rs ih =>
    unfold jsonldRecLoop at h
    rcases hc : jsonldCandidate uj url r with e | cand
    · rw [hc] at h
      simp [bind, Except.bind] at h
    · rw [hc] at h
      simp only [bind, Except.bind] at h
      rcases hv : validGate cand with _ | d'
      · simp only [hv] at h
        exact ih h
      · simp only [hv] at h
        simp only [Except.ok.injEq, Option.some.injEq] at h
        subst h
        exact validGate_valid hv

theorem jsonldScriptLoop_valid {uj : String → String → String} {url : String}
    {scripts : List (Option PyVal)} {d : Data}
    (h : jsonldScriptLoop uj url scripts = .ok (some d)) : validB d = true := by
  induction scripts with
  | nil => exact absurd h (by simp [jsonldScriptLoop])
  | cons s rest ih =>
    cases s with
    | none =>
      unfold jsonldScriptLoop at h
      exact ih h
    | some payload =>
      unfold jsonldScriptLoop at h
      rcases hr : jsonldRecLoop uj url (jsonldRecipes (jsonldGraph payload)) with e | r
      · rw [hr] at h
        simp [bind, Except.bind] at h
      · rw [hr] at h
        simp only [bind, Except.bind] at h
        cases r with
        | none => exact ih h
        | some d' =>
          simp only [Except.ok.injEq, Option.some.injEq] at h
          subst h
          exact jsonldRecLoop_valid hr

theorem scrape_jsonld_valid {uj : String → String → String} {url : String}
    {scripts : List (Option PyVal)} {d : Data}
    (h : scrape_jsonld uj url scripts = some d) : validB d = true := by
  unfold scrape_jsonld at h
  rcases hl : jsonldScriptLoop uj url scripts with e | r
  · rw [hl] at h
    cases h
  · rw [hl] at h
    cases r with
    | none => cases h
    | some d' =>
      injection h with h'
      subst h'
      exact jsonldScriptLoop_valid hl

/-- C1: over one fetched page, scrape_recipe tries the four tiers strictly
in the fixed order library, JSON-LD, microdata, heuristic; it halts at the
first tier that yields a result and returns it as Success (so a later
tier's result is never returned when an earlier tier produced one); every
returned result satisfies the validity rule title ≠ "" and (ingredients ≠ []
or steps ≠ []); when all four tiers are exhausted the outcome is Failure. -/
theorem C1_tier_order :
    ∀ (bh : List Char → Bool) (uj : String → String → String) (url : String)
      (page : Page),
      urlGate bh url = true →
      (∀ d, scrape_with_library page.lib = some d →
        scrape_recipe bh uj url (.ok page) = .ok (.success d "recipe-scrapers") ∧
          validB d = true) ∧
      (scrape_with_library page.lib = Option.none →
        ∀ d, scrape_jsonld uj (effectiveUrl bh url) page.scripts = some d →
          scrape_recipe bh uj url (.ok page) = .ok (.success d "json-ld") ∧
            validB d = true) ∧
      (scrape_with_library page.lib = Option.none →
        scrape_jsonld uj (effectiveUrl bh url) page.scripts = Option.none →
        ∀ d, scrape_microdata uj (effectiveUrl bh url) page.micro = some d →
          scrape_recipe bh uj url (.ok page) = .ok (.success d "microdata") ∧
            validB d = true) ∧
      (scrape_with_library page.lib = Option.none →
        scrape_jsonld uj (effectiveUrl bh url) page.scripts = Option.none →
        scrape_microdata uj (effectiveUrl bh url) page.micro = Option.none →
        ∀ d, scrape_heuristic uj (effectiveUrl bh url) page.heur = some d →
          scrape_recipe bh uj url (.ok page) = .ok (.success d "heuristic") ∧
            validB d = true) ∧
      (scrape_with_library page.lib = Option.none →
        scrape_jsonld uj (effectiveUrl bh url) page.scripts = Option.none →
        scrape_microdata uj (effectiveUrl bh url) page.micro = Option.none →
        scrape_heuristic uj (effectiveUrl bh url) page.heur = Option.none →
        scrape_recipe bh uj url (.ok page) = .ok (.failure noRecipeMsg)) := by
  intro bh uj url page hg
  have hred : scrape_recipe bh uj url (.ok page) =
      .ok (tiersFold uj (effectiveUrl bh url) page) :=
    scrape_recipe_ok_gate bh uj url (.ok page) hg
  refine ⟨?_, ?_, ?_, ?_, ?_⟩
  · intro d h1
    refine ⟨?_, scrape_with_library_valid h1⟩
    rw [hred]
    unfold tiersFold
    rw [h1]
  · intro h1 d h2
    refine ⟨?_, scrape_jsonld_valid h2⟩
    rw [hred]
    unfold tiersFold
    rw [h1, h2]
  · intro h1 h2 d h3
    refine ⟨?_, scrape_microdata_valid h3⟩
    rw [hred]
    unfold tiersFold
    rw [h1, h2, h3]
  · intro h1 h2 h3 d h4
    refine ⟨?_, scrape_heuristic_valid h4⟩
    rw [hred]
    unfold tiersFold
    rw [h1, h2, h3, h4]
  · intro h1 h2 h3 h4
    rw [hred]
    unfold tiersFold
    rw [h1, h2, h3, h4]

/-- C1 witness: the theorem applied to a page on which the Tier-1 library
succeeds with a minimally valid result. -/
theorem C1_tier_order_witness :
    scrape_recipe bhAny ujId "https://example.com" (.ok pageLib) =
      .ok (.success dataLib "recipe-scrapers") ∧ validB dataLib = true :=
  (C1_tier_order bhAny ujId "https://example.com" pageLib rfl).1 dataLib (by decide)

/-! ## Lemmas for lines consisting solely of a number (C10) -/

theorem takeWhile_eq_self_of {p : Char → Bool} {l : List Char}
    (h : ∀ c ∈ l, p c = true) : l.takeWhile p = l := by
  induction l with
  | nil => rfl
  | cons c cs ih =>
    simp only [List.takeWhile_cons, h c (List.mem_cons_self c cs), if_true]
    rw [ih (fun c' hc' => h c' (List.mem_cons_of_mem c hc'))]

theorem dropWhile_eq_nil_of {p : Char → Bool} {l : List Char}
    (h : ∀ c ∈ l, p c = true) : l.dropWhile p = [] := by
  induction l with
  | nil => rfl
  | cons c cs ih =>
    simp only [List.dropWhile_cons, h c (List.mem_cons_self c cs), if_true]
    exact ih (fun c' hc' => h c' (List.mem_cons_of_mem c hc'))

theorem mem_of_getLast? {l : List Char} {c : Char} (h : l.getLast? = some c) :
    c ∈ l := by
  rw [← List.head?_reverse] at h
  have : c ∈ l.reverse := by
    cases hr : l.reverse with
    | nil => rw [hr] at h; cases h
    | cons x xs =>
      rw [hr] at h
      injection h with h'
      subst h'
      exact List.mem_cons_self _ _
  exact List.mem_reverse.mp this

theorem getLast?_append_right {l1 l2 : List Char} (h : l2 ≠ []) :
    (l1 ++ l2).getLast? = l2.getLast? := by
  rw [← List.head?_reverse, ← List.head?_reverse, List.reverse_append]
  cases hr : l2.reverse with
  | nil => exact absurd (by simpa using hr) h
  | cons c r => simp

theorem numChar_bounds {c : Char} (h : numChar c = true) :
    44 ≤ c.toNat ∧ c.toNat ≤ 57 := by
  simp only [numChar, Bool.or_eq_true, decide_eq_true_eq] at h
  rcases h with ((hd | hq) | hq) | hq
  · obtain ⟨h1, h2⟩ := isDig_bounds hd
    omega
  · subst hq; decide
  · subst hq; decide
  · subst hq; decide

theorem numChar_not_ws {c : Char} (h : numChar c = true) : isPySpace c = false := by
  obtain ⟨h1, h2⟩ := numChar_bounds h
  simp only [isPySpace, decide_eq_false_iff_not]
  push_neg
  refine ⟨?_, ?_, ?_, ?_, ?_, ?_⟩ <;>
    (intro hEq; subst hEq; revert h1 h2; decide)

theorem numChar_lower {c : Char} (h : numChar c = true) : lowerC c = c := by
  obtain ⟨h1, h2⟩ := numChar_bounds h
  unfold lowerC
  rw [if_neg (by omega), if_neg]
  intro hEq
  subst hEq
  exact absurd h2 (by decide)

theorem numChar_ne {c c' : Char} (h : numChar c = true)
    (h2 : c'.toNat < 44 ∨ 57 < c'.toNat) : c ≠ c' := by
  obtain ⟨hl, hr⟩ := numChar_bounds h
  intro hEq
  subst hEq
  omega

theorem fracVal_numChar {c : Char} (h : numChar c = true) :
    fracVal c = Option.none := by
  obtain ⟨h1, h2⟩ := numChar_bounds h
  unfold fracVal
  rw [if_neg (fun hq => by subst hq; exact absurd h2 (by decide)),
    if_neg (fun hq => by subst hq; exact absurd h2 (by decide)),
    if_neg (fun hq => by subst hq; exact absurd h2 (by decide)),
    if_neg (fun hq => by subst hq; exact absurd h2 (by decide)),
    if_neg (fun hq => by subst hq; exact absurd h2 (by decide))]

/-! ## Lemmas for lines consisting solely of a number (C10) -/

theorem takeWhile_eq_nil_of {p : Char → Bool} {l : List Char}
    (h : ∀ c ∈ l, p c = false) : l.takeWhile p = [] := by
  cases l with
  | nil => rfl
  | cons c cs => simp [List.takeWhile_cons, h c (List.mem_cons_self c cs)]

theorem qtyMixed_noWs {cs : List Char} (hws : ∀ c ∈ cs, isPySpace c = false) :
    qtyMixed cs = Option.none := by
  unfold qtyMixed
  have hr1 : ∀ c ∈ cs.dropWhile isDig, isPySpace c = false :=
    fun c hc => hws c ((List.dropWhile_sublist isDig).mem hc)
  simp only [digitsSplit, wsSplit, takeWhile_eq_nil_of hr1]
  simp

theorem qtyFrac_noWs {cs : List Char} (hws : ∀ c ∈ cs, isPySpace c = false) :
    qtyFrac cs = Option.none := by
  unfold qtyFrac
  have hr1 : ∀ c ∈ cs.dropWhile isDig, isPySpace c = false :=
    fun c hc => hws c ((List.dropWhile_sublist isDig).mem hc)
  simp only [digitsSplit, wsSplit]
  cases hsplit : cs.dropWhile isDig with
  | nil => simp
  | cons c r2 =>
    have hmem2 : ∀ x ∈ r2, isPySpace x = false := fun x hx => by
      apply hr1
      rw [hsplit]
      exact List.mem_cons_of_mem c hx
    have hr3 : ∀ x ∈ r2.dropWhile isDig, isPySpace x = false :=
      fun x hx => hmem2 x ((List.dropWhile_sublist isDig).mem hx)
    simp only [takeWhile_eq_nil_of hr3]
    by_cases hc : c = '/'
    · simp [hc]
    · simp [hc]

theorem qtyDec_noWs {cs : List Char} (hws : ∀ c ∈ cs, isPySpace c = false) :
    qtyDec cs = Option.none := by
  unfold qtyDec
  have hr1 : ∀ c ∈ cs.dropWhile isDig, isPySpace c = false :=
    fun c hc => hws c ((List.dropWhile_sublist isDig).mem hc)
  simp only [digitsSplit, wsSplit, takeWhile_eq_nil_of hr1]
  cases hsplit : cs.dropWhile isDig with
  | nil => simp
  | cons c r2 =>
    have hmem2 : ∀ x ∈ r2, isPySpace x = false := fun x hx => by
      apply hr1
      rw [hsplit]
      exact List.mem_cons_of_mem c hx
    have hr3 : ∀ x ∈ r2.dropWhile isDig, isPySpace x = false :=
      fun x hx => hmem2 x ((List.dropWhile_sublist isDig).mem hx)
    simp only [takeWhile_eq_nil_of hr3]
    by_cases hc : c = '.' ∨ c = ','
    · simp [hc]
    · simp [hc]

theorem parse_qty_noWs {cs : List Char} (hws : ∀ c ∈ cs, isPySpace c = false)
    (hfrac : ∀ c r, cs = c :: r → fracVal c = Option.none) :
    parse_qty cs = (Option.none, cs) := by
  have hrules : qtyRules cs = (Option.none, cs) := by
    unfold qtyRules
    rw [qtyMixed_noWs hws, qtyFrac_noWs hws, qtyDec_noWs hws]
  cases cs with
  | nil => exact hrules
  | cons c r =>
    have hfv : fracVal c = Option.none := hfrac c r rfl
    simp only [parse_qty, hfv]
    exact hrules

/-- The Boolean table property behind parse_unit_numHead: every UNIT_MAP
pattern starts with a case-insensitive literal whose first character is a
lowercase letter. -/
def patHeadOk (p : List UTok × String) : Bool :=
  match p.1 with
  | .l s :: _ =>
    match s.data with
    | c0 :: _ => 97 ≤ c0.toNat
    | [] => false
  | _ => false

theorem parse_unit_lowHead {c : Char} {rest : List Char} (hc : c.toNat ≤ 57)
    (hlc : lowerC c = c) :
    parse_unit (c :: rest) = (Option.none, c :: rest) := by
  have hfind : UNIT_MAP.findSome? (fun p => tryUnit p (c :: rest)) = Option.none := by
    rw [List.findSome?_eq_none_iff]
    intro p hp
    have hPat : UNIT_MAP.all patHeadOk = true := by decide
    have hpOk : patHeadOk p = true := List.all_eq_true.mp hPat p hp
    unfold tryUnit
    rcases hp1 : p.1 with _ | ⟨t0, ts⟩
    · simp only [patHeadOk, hp1] at hpOk
      exact Bool.noConfusion hpOk
    · cases t0 with
      | l s =>
        simp only [patHeadOk, hp1] at hpOk
        cases hs : s.data with
        | nil =>
          simp only [hs] at hpOk
          exact Bool.noConfusion hpOk
        | cons c0 s' =>
          simp only [hs, decide_eq_true_eq] at hpOk
          have hci : ciStarts s.data (c :: rest) = Option.none := by
            rw [hs]
            unfold ciStarts
            rw [if_neg]
            intro hq
            rw [hlc] at hq
            subst hq
            omega
          have hm : matchUPat (UTok.l s :: (ts ++ [UTok.o '.', UTok.w1, UTok.ode]))
              (c :: rest) = Option.none := by
            unfold matchUPat
            rw [hci]
          rw [List.cons_append, hm]
          rfl
      | o c' =>
        simp only [patHeadOk, hp1] at hpOk
        exact Bool.noConfusion hpOk
      | w0 =>
        simp only [patHeadOk, hp1] at hpOk
        exact Bool.noConfusion hpOk
      | w1 =>
        simp only [patHeadOk, hp1] at hpOk
        exact Bool.noConfusion hpOk
      | ode =>
        simp only [patHeadOk, hp1] at hpOk
        exact Bool.noConfusion hpOk
  unfold parse_unit
  rw [hfind]
  unfold litStarts
  rw [if_neg]
  intro hq
  subst hq
  exact absurd hc (by decide)

theorem pinchMatch_numHead {c : Char} {rest : List Char} (hc : c.toNat ≤ 57) :
    pinchMatch (c :: rest) = Option.none := by
  cases rest with
  | nil => rfl
  | cons c1 r =>
    simp only [pinchMatch]
    rw [if_neg]
    rintro ⟨hq | hq, -⟩ <;> (subst hq; exact absurd hc (by decide))

theorem labeledBranch_noColon {cs : List Char} (h : ∀ c ∈ cs, c ≠ ':') :
    labeledBranch cs = Option.none := by
  unfold labeledBranch
  have ht : cs.takeWhile (fun c => c ≠ ':') = cs :=
    takeWhile_eq_self_of (fun c hc => by simp [h c hc])
  simp only [ht, List.drop_length]

theorem parenGo_none {cs : List Char} (h : ∀ c ∈ cs, c ≠ '(') (acc : List Char) :
    parenGo acc cs = Option.none := by
  induction cs generalizing acc with
  | nil => rfl
  | cons c r ih =>
    unfold parenGo
    rw [if_neg (h c (List.mem_cons_self c r))]
    exact ih (fun c' hc' => h c' (List.mem_cons_of_mem c hc')) (c :: acc)

theorem gustoCore_notA {a : Char} {r1 : List Char} (h : lowerC a ≠ 'a') :
    gustoCore (a :: r1) = Option.none := by
  simp only [gustoCore]
  rw [if_neg h]

theorem gustoAt_none {cs : List Char}
    (h : ∀ c ∈ cs, isPySpace c = false ∧ lowerC c ≠ 'a') :
    gustoAt cs = Option.none := by
  cases cs with
  | nil => rfl
  | cons c r =>
    have htail : ∀ x ∈ r, isPySpace x = false ∧ lowerC x ≠ 'a' :=
      fun x hx => h x (List.mem_cons_of_mem c hx)
    show gustoCore ((if c = ',' then r else c :: r).dropWhile isPySpace) =
      Option.none
    by_cases hc : c = ','
    · rw [if_pos hc, dropWhile_eq_self_of (fun x hx => (htail x hx).1)]
      cases r with
      | nil => rfl
      | cons a r1 => exact gustoCore_notA (htail a (List.mem_cons_self a r1)).2
    · rw [if_neg hc, List.dropWhile_cons, (h c (List.mem_cons_self c r)).1]
      simp only [Bool.false_eq_true, if_false]
      exact gustoCore_notA (h c (List.mem_cons_self c r)).2

theorem gustoGo_none {cs : List Char}
    (h : ∀ c ∈ cs, isPySpace c = false ∧ lowerC c ≠ 'a') (acc : List Char) :
    gustoGo acc cs = Option.none := by
  induction cs generalizing acc with
  | nil => rfl
  | cons c r ih =>
    unfold gustoGo
    rw [gustoAt_none h]
    exact ih (fun x hx => h x (List.mem_cons_of_mem c hx)) (c :: acc)

theorem stripChars_digit {c : Char} (h : isDig c = true) :
    (['.', ',', ';', ':'] : List Char).contains c = false := by
  obtain ⟨h1, h2⟩ := isDig_bounds h
  simp only [List.contains_cons, List.contains_nil, Bool.or_eq_false_iff,
    beq_eq_false_iff_ne, ne_eq]
  refine ⟨?_, ?_, ?_, ?_, trivial⟩ <;>
    (intro hEq; subst hEq; revert h1 h2; decide)

theorem rstripSet_id {set cs : List Char}
    (h : ∀ c, cs.getLast? = some c → set.contains c = false) :
    rstripSet set cs = cs := by
  unfold rstripSet
  cases hrev : cs.reverse with
  | nil =>
    have : cs = [] := by simpa using hrev
    subst this
    rfl
  | cons c rest =>
    have hlast : cs.getLast? = some c := by
      rw [← List.head?_reverse, hrev]
      rfl
    rw [List.dropWhile_cons, h c hlast]
    simp only [Bool.false_eq_true, if_false]
    rw [← hrev, List.reverse_reverse]

/-- A line made only of digits and numeric separators, beginning and ending
with a digit, goes through the general path with no quantity, no unit, no
notes, and an unchanged name. -/
theorem parse_ingredient_numeric {cs : List Char} (hne : cs ≠ [])
    (hnum : ∀ c ∈ cs, numChar c = true)
    (hhead : ∀ c r, cs = c :: r → isDig c = true)
    (hlast : ∀ c, cs.getLast? = some c → isDig c = true) :
    parse_ingredient (String.mk cs) =
      ⟨Option.none, Option.none, String.mk cs, ""⟩ := by
  obtain ⟨c0, r0, rfl⟩ : ∃ c0 r0, cs = c0 :: r0 := by
    cases cs with
    | nil => exact absurd rfl hne
    | cons a b => exact ⟨a, b, rfl⟩
  have hws : ∀ c ∈ c0 :: r0, isPySpace c = false :=
    fun c hc => numChar_not_ws (hnum c hc)
  have hstrip : pyStripL (c0 :: r0) = c0 :: r0 := pyStripL_eq_self hws
  have hc0 : isDig c0 = true := hhead c0 r0 rfl
  have h1 := @pinchMatch_numHead c0 r0 (isDig_bounds hc0).2
  have h2 := labeledBranch_noColon
    (fun c hc => numChar_ne (hnum c hc) (Or.inr (by decide)))
  have h3 := parse_qty_noWs hws (fun c r hcr => by
    injection hcr with hcc hrr
    rw [← hcc]
    exact fracVal_numChar (hnum c0 (List.mem_cons_self c0 r0)))
  have h4 := @parse_unit_lowHead c0 r0 (isDig_bounds hc0).2
    (numChar_lower (hnum c0 (List.mem_cons_self c0 r0)))
  have h5 := @parenGo_none (c0 :: r0)
    (fun c hc => numChar_ne (hnum c hc) (Or.inl (by decide))) []
  have h6 := @gustoGo_none (c0 :: r0)
    (fun c hc => ⟨hws c hc, by
      rw [numChar_lower (hnum c hc)]
      exact numChar_ne (hnum c hc) (Or.inr (by decide))⟩) []
  have h7 := @rstripSet_id ['.', ',', ';', ':']
    (c0 :: r0) (fun c hcl => stripChars_digit (hlast c hcl))
  simp only [parse_ingredient, hstrip, h1, h2, h3, h4, h5, h6, h7,
    List.isEmpty_cons, Bool.false_eq_true, if_false]

/-- C10: every rule of the quantity grammar demands text after the number, so
an ingredient line that is nothing but a number — plain digits, a slash
fraction such as 1/2, or a decimal such as 1,5 — comes back with no quantity
and no unit and the digits left as the name; only a Unicode vulgar-fraction
glyph is accepted as a quantity with nothing after it. -/
theorem C10_bare_number_lines :
    (∀ (c0 : Char) (r0 : List Char),
      (∀ c ∈ c0 :: r0, numChar c = true) →
      isDig c0 = true →
      isDig ((c0 :: r0).getLast (List.cons_ne_nil c0 r0)) = true →
      parse_ingredient (String.mk (c0 :: r0)) =
        ⟨Option.none, Option.none, String.mk (c0 :: r0), ""⟩) ∧
    parse_qty ['½'] = (some (1/2), []) ∧
    parse_qty ['¼'] = (some (1/4), []) ∧
    parse_qty ['¾'] = (some (3/4), []) ∧
    parse_qty ['⅓'] = (some (333/1000), []) ∧
    parse_qty ['⅔'] = (some (667/1000), []) := by
  refine ⟨?_, rfl, rfl, rfl, rfl, rfl⟩
  intro c0 r0 hnum hc0 hlastD
  apply parse_ingredient_numeric (List.cons_ne_nil c0 r0) hnum
  · intro c r h
    injection h with h1 h2
    rw [← h1]
    exact hc0
  · intro c hl
    obtain ⟨h, h2⟩ :=
      List.mem_getLast?_eq_getLast (l := c0 :: r0) (x := c)
        (Option.mem_def.mpr hl)
    rw [h2]
    exact hlastD

theorem intercalate_nil (s : String) : s.intercalate [] = "" := rfl

theorem intercalate_single (s a : String) : s.intercalate [a] = a := rfl

theorem intercalate_two (s a b : String) : s.intercalate [a, b] = a ++ s ++ b :=
  rfl

theorem intercalate_three (s a b c : String) :
    s.intercalate [a, b, c] = a ++ s ++ b ++ s ++ c := rfl

theorem append_space_ne (a b : String) : (a ++ " " ++ b = "") ↔ False := by
  simp only [iff_false]
  intro h
  have hl := congrArg String.length h
  rw [String.length_append, String.length_append] at hl
  have h1 : (" " : String).length = 1 := rfl
  have h2 : ("" : String).length = 0 := rfl
  rw [h1, h2] at hl
  omega

theorem ingKvs_text (t q u n : Option String) :
    dictGet (ingKvs t q u n) "text" = t.map PyVal.str := by
  rcases t with _ | ts <;> rcases q with _ | qs <;> rcases u with _ | us <;>
    rcases n with _ | ns <;> rfl

theorem ingKvs_quantity (t q u n : Option String) :
    dictGet (ingKvs t q u n) "quantity" = q.map PyVal.str := by
  rcases t with _ | ts <;> rcases q with _ | qs <;> rcases u with _ | us <;>
    rcases n with _ | ns <;> rfl

theorem ingKvs_unitText (t q u n : Option String) :
    dictGet (ingKvs t q u n) "unitText" = u.map PyVal.str := by
  rcases t with _ | ts <;> rcases q with _ | qs <;> rcases u with _ | us <;>
    rcases n with _ | ns <;> rfl

theorem ingKvs_name (t q u n : Option String) :
    dictGet (ingKvs t q u n) "name" = n.map PyVal.str := by
  rcases t with _ | ts <;> rcases q with _ | qs <;> rcases u with _ | us <;>
    rcases n with _ | ns <;> rfl

theorem ingKvs_value (t q u n : Option String) :
    dictGet (ingKvs t q u n) "@value" = Option.none := by
  rcases t with _ | ts <;> rcases q with _ | qs <;> rcases u with _ | us <;>
    rcases n with _ | ns <;> rfl

theorem ingKvs_amount (t q u n : Option String) :
    dictGet (ingKvs t q u n) "amount" = Option.none := by
  rcases t with _ | ts <;> rcases q with _ | qs <;> rcases u with _ | us <;>
    rcases n with _ | ns <;> rfl

theorem ingKvs_unit (t q u n : Option String) :
    dictGet (ingKvs t q u n) "unit" = Option.none := by
  rcases t with _ | ts <;> rcases q with _ | qs <;> rcases u with _ | us <;>
    rcases n with _ | ns <;> rfl

theorem ingKvs_ingredient (t q u n : Option String) :
    dictGet (ingKvs t q u n) "ingredient" = Option.none := by
  rcases t with _ | ts <;> rcases q with _ | qs <;> rcases u with _ | us <;>
    rcases n with _ | ns <;> rfl

theorem pyFalsy_str (s : String) : pyFalsy (PyVal.str s) = decide (s = "") :=
  rfl

theorem pyStr_str (s : String) : pyStr (PyVal.str s) = s := rfl

theorem pyOr_str_empty (o : Option String) :
    pyOr ((o.map PyVal.str).getD PyVal.none) (PyVal.str "") =
      PyVal.str (o.getD "") := by
  rcases o with _ | s
  · rfl
  · by_cases h : s = ""
    · subst h
      rfl
    · simp [pyOr, pyFalsy, h]

theorem pyOr2_str_empty (o : Option String) :
    pyOr (pyOr ((o.map PyVal.str).getD PyVal.none) PyVal.none)
      (PyVal.str "") = PyVal.str (o.getD "") := by
  rcases o with _ | s
  · rfl
  · by_cases h : s = ""
    · subst h
      rfl
    · simp [pyOr, pyFalsy, h]

theorem part_eq (o : Option String) :
    (if o.getD "" = "" then ([] : List String) else [o.getD ""]) =
      presentField o := by
  rcases o with _ | s
  · rfl
  · simp only [Option.getD_some, presentField]

theorem text3_eqA (q u n : Option String) :
    (if pyFalsy (PyVal.str (String.intercalate " "
        (presentField q ++ presentField u ++ presentField n))) = true
      then PyVal.str (n.getD "")
      else PyVal.str (String.intercalate " "
        (presentField q ++ presentField u ++ presentField n))) =
    PyVal.str (String.intercalate " "
      (presentField q ++ presentField u ++ presentField n)) := by
  rcases q with _ | qs
  all_goals rcases u with _ | us
  all_goals rcases n with _ | ns
  all_goals simp only [presentField, pyFalsy_str, decide_eq_true_eq,
    Option.getD_some, Option.getD_none, List.append_nil, List.nil_append]
  all_goals try (split_ifs <;>
    simp_all [intercalate_nil, intercalate_single, intercalate_two,
      intercalate_three, append_space_ne])

theorem text3_eqB (q u n : Option String) :
    (if String.intercalate " "
        (presentField q ++ presentField u ++ presentField n) = ""
      then PyVal.str (n.getD "")
      else PyVal.str (String.intercalate " "
        (presentField q ++ presentField u ++ presentField n))) =
    PyVal.str (String.intercalate " "
      (presentField q ++ presentField u ++ presentField n)) := by
  rcases q with _ | qs
  all_goals rcases u with _ | us
  all_goals rcases n with _ | ns
  all_goals simp only [presentField, Option.getD_some, Option.getD_none,
    List.append_nil, List.nil_append]
  all_goals try (split_ifs <;>
    simp_all [intercalate_nil, intercalate_single, intercalate_two,
      intercalate_three, append_space_ne])

set_option maxHeartbeats 1600000 in
theorem normIngItem_spec (i : IngIn) :
    normIngItem i.toPyVal =
      if specIngredientText i = "" then Option.none
      else some (specIngredientText i) := by
  cases i with
  | plain s => simp only [IngIn.toPyVal, normIngItem, specIngredientText]
  | record t q u n =>
    show normIngItem (.dict (ingKvs t q u n)) = _
    simp only [normIngItem, specIngredientText, dictGetD, ingKvs_text,
      ingKvs_value, ingKvs_quantity, ingKvs_amount, ingKvs_unitText,
      ingKvs_unit, ingKvs_name, ingKvs_ingredient, Option.getD_none,
      pyOr_str_empty, pyOr2_str_empty, part_eq, pyFalsy_str, pyStr_str,
      decide_eq_true_eq]
    rcases t with _ | ts
    · rw [show (Option.none : Option String).getD "" = "" from rfl]
      rw [if_pos rfl]
      simp only [text3_eqA, text3_eqB, pyStr_str]
    · simp only [Option.getD_some]
      by_cases hts : ts = ""
      · subst hts
        rw [if_pos rfl]
        simp only [text3_eqA, text3_eqB, pyStr_str]
        rw [if_neg (show ¬(("" : String) ≠ "") from fun hq => hq rfl)]
      · rw [if_neg hts]
        simp only [pyFalsy_str, decide_eq_true_eq]
        rw [if_neg hts]
        simp only [pyStr_str]
        rw [if_pos hts]

theorem normIngList_spec (l : List IngIn) :
    normIngList (l.map IngIn.toPyVal) =
      (l.map specIngredientText).filter (fun s => s ≠ "") := by
  induction l with
  | nil => rfl
  | cons i r ih =>
    simp only [List.map_cons, normIngList, List.filterMap_cons,
      List.filter_cons] at ih ⊢
    rw [normIngItem_spec i]
    by_cases hs : specIngredientText i = ""
    · simp [hs, ih]
    · simp [hs, ih]

/-- C7: over lists mixing plain strings and quantity/unitText/name records,
the structured-list normalizer returns exactly the non-empty resolved texts
in input order (a record prefers its full-text field and otherwise joins its
present quantity, unit and name fields), so its output length is the number
of inputs resolving to non-empty text. -/
theorem C7_structured_ingredients (l : List IngIn) :
    normalize_ingredients (.list (l.map IngIn.toPyVal)) =
      .ok ((l.map specIngredientText).filter (fun s => s ≠ "")) ∧
    ((l.map specIngredientText).filter (fun s => s ≠ "")).length =
      l.countP (fun i => specIngredientText i ≠ "") := by
  constructor
  · cases l with
    | nil => rfl
    | cons i r =>
      have h := normIngList_spec (i :: r)
      simp only [List.map_cons] at h ⊢
      simp [normalize_ingredients, pyFalsy, h]
  · rw [List.filter_map, List.length_map, List.countP_eq_length_filter]
    rfl

/-- C10 witness: the theorem applied to the lines "2", "1/2" and "1,5". -/
theorem C10_bare_number_lines_witness :
    parse_ingredient (String.mk ['2']) =
      ⟨Option.none, Option.none, String.mk ['2'], ""⟩ ∧
    parse_ingredient (String.mk ['1', '/', '2']) =
      ⟨Option.none, Option.none, String.mk ['1', '/', '2'], ""⟩ ∧
    parse_ingredient (String.mk ['1', ',', '5']) =
      ⟨Option.none, Option.none, String.mk ['1', ',', '5'], ""⟩ :=
  ⟨C10_bare_number_lines.1 '2' [] (by decide) (by decide) (by decide),
   C10_bare_number_lines.1 '1' ['/', '2'] (by decide) (by decide) (by decide),
   C10_bare_number_lines.1 '1' [',', '5'] (by decide) (by decide) (by decide)⟩

end Myzest
